import Mathlib

/-!
Shallow embedding of drivers/staging/kpc2000/kpc_spi/spi_driver.c
(the KP2000 SPI controller transfer engine).

Modelling conventions:
  * Machine integers are `Nat` with explicit `% 2^32` where the C code
    truncates a 64-bit register value into the 32-bit `sc.reg` union field.
  * The signed 64-bit `conf_cache` field is an `Int` with the source's `-1`
    sentinel.
  * The memory-mapped bus is an oracle `Env.busRead` giving the value
    returned by the k-th (non-polling) bus read, plus a trace of bus
    operations performed.  Status-bit polling inside
    `kp_spi_wait_for_reg_bit` is abstracted by the outcome oracle
    `Env.waitOk` (one Bool per wait call, in call order); the polling loop
    itself is modelled bit-exactly by `kp_spi_wait_poll` below, whose only
    possible outcomes are success (0) and timeout (-ETIMEDOUT), justifying
    the Bool abstraction.  No claim counts the Status-register reads
    performed inside a poll loop, so those reads are not recorded in the
    trace.
  * `udelay` / `cpu_relax` have no modelled effect.
-/

/-! Register indices (the C `#define KP_SPI_REG_...` constants). -/

def KP_SPI_REG_CONFIG : Nat := 0
def KP_SPI_REG_STATUS : Nat := 1
def KP_SPI_REG_FFCTRL : Nat := 2
def KP_SPI_REG_TXDATA : Nat := 3
def KP_SPI_REG_RXDATA : Nat := 4

def KP_SPI_CLK : Nat := 48000000

def KP_SPI_REG_CONFIG_TRM_TXRX : Nat := 0
def KP_SPI_REG_CONFIG_TRM_RX : Nat := 1
def KP_SPI_REG_CONFIG_TRM_TX : Nat := 2

def KP_SPI_REG_STATUS_RXS : Nat := 0x01
def KP_SPI_REG_STATUS_TXS : Nat := 0x02
def KP_SPI_REG_STATUS_EOT : Nat := 0x04

def E_INVAL : Int := 22
def E_IOERR : Int := 5
def E_TIMEDOUT : Int := 110

/-!
Bit-field access over a packed word, mirroring `union kp_spi_config`:
  pha@0(1) pol@1(1) epol@2(1) dpe@3(1) wl@4(5) reserved@9(3)
  trm@12(2) cs@14(4) wcnt@18(7) ffen@25(1) spi_en@26(1) reserved@27(5).
`getField v off w` extracts the `w`-bit field at bit offset `off`;
`setField v off w x` replaces it by `x` (truncated to `w` bits).
-/

def getField (v off w : Nat) : Nat := v / 2 ^ off % 2 ^ w

def setField (v off w x : Nat) : Nat :=
  v % 2 ^ off + x % 2 ^ w * 2 ^ off + v / 2 ^ (off + w) * 2 ^ (off + w)

theorem getField_eq_mod_div (v off w : Nat) :
    getField v off w = v % 2 ^ (off + w) / 2 ^ off := by
  rw [getField, pow_add, Nat.mod_mul_right_div_self]

theorem getField_setField_self (v o w x : Nat) :
    getField (setField v o w x) o w = x % 2 ^ w := by
  have hpos : 0 < 2 ^ o := Nat.pos_pow_of_pos o (by norm_num)
  have hA : v % 2 ^ o < 2 ^ o := Nat.mod_lt _ hpos
  have hsplit : setField v o w x =
      v % 2 ^ o + (x % 2 ^ w + v / 2 ^ (o + w) * 2 ^ w) * 2 ^ o := by
    rw [setField, pow_add]; ring
  rw [getField, hsplit, Nat.add_mul_div_right _ _ hpos,
    Nat.div_eq_of_lt hA, Nat.zero_add, Nat.add_mul_mod_self_right,
    Nat.mod_mod_of_dvd _ dvd_rfl]

theorem getField_setField_low (v o1 w1 x o2 w2 : Nat) (h : o2 + w2 ≤ o1) :
    getField (setField v o1 w1 x) o2 w2 = getField v o2 w2 := by
  rw [getField_eq_mod_div, getField_eq_mod_div]
  congr 1
  have hsplit : setField v o1 w1 x =
      v % 2 ^ o1 +
        ((x % 2 ^ w1 + v / 2 ^ (o1 + w1) * 2 ^ w1) * 2 ^ (o1 - (o2 + w2))) *
          2 ^ (o2 + w2) := by
    have hpow : (2 : Nat) ^ o1 = 2 ^ (o1 - (o2 + w2)) * 2 ^ (o2 + w2) := by
      rw [← pow_add]; congr 1; omega
    rw [setField, pow_add 2 o1 w1, hpow]; ring
  rw [hsplit, Nat.add_mul_mod_self_right]
  exact Nat.mod_mod_of_dvd v (pow_dvd_pow 2 h)

theorem getField_setField_high (v o1 w1 x o2 w2 : Nat) (h : o1 + w1 ≤ o2) :
    getField (setField v o1 w1 x) o2 w2 = getField v o2 w2 := by
  have hpos1 : 0 < 2 ^ o1 := Nat.pos_pow_of_pos o1 (by norm_num)
  have hposow : 0 < 2 ^ (o1 + w1) := Nat.pos_pow_of_pos _ (by norm_num)
  have hA : v % 2 ^ o1 < 2 ^ o1 := Nat.mod_lt _ hpos1
  have hB : x % 2 ^ w1 < 2 ^ w1 :=
    Nat.mod_lt _ (Nat.pos_pow_of_pos w1 (by norm_num))
  have hE : v % 2 ^ o1 + x % 2 ^ w1 * 2 ^ o1 < 2 ^ (o1 + w1) := by
    have h1 : (x % 2 ^ w1 + 1) * 2 ^ o1 ≤ 2 ^ w1 * 2 ^ o1 :=
      Nat.mul_le_mul_right _ (Nat.succ_le_of_lt hB)
    calc v % 2 ^ o1 + x % 2 ^ w1 * 2 ^ o1
        < (x % 2 ^ w1 + 1) * 2 ^ o1 := by
          have := hA; nlinarith [hA]
      _ ≤ 2 ^ w1 * 2 ^ o1 := h1
      _ = 2 ^ (o1 + w1) := by rw [pow_add]; ring
  have hdiv : setField v o1 w1 x / 2 ^ (o1 + w1) = v / 2 ^ (o1 + w1) := by
    rw [setField, Nat.add_mul_div_right _ _ hposow,
      Nat.div_eq_of_lt hE, Nat.zero_add]
  rw [getField, getField]
  have hsplit : (2 : Nat) ^ o2 = 2 ^ (o1 + w1) * 2 ^ (o2 - (o1 + w1)) := by
    rw [← pow_add]; congr 1; omega
  rw [hsplit, ← Nat.div_div_eq_div_mul, ← Nat.div_div_eq_div_mul, hdiv]

theorem getField_mod (v k o w : Nat) (h : o + w ≤ k) :
    getField (v % 2 ^ k) o w = getField v o w := by
  rw [getField_eq_mod_div, getField_eq_mod_div]
  congr 1
  exact Nat.mod_mod_of_dvd v (pow_dvd_pow 2 h)

/-! Bus operations and state.  `BusOp` records one access to the
memory-mapped register window (`struct kp_spi_controller_state`'s `base`);
`CState` is `struct kp_spi_controller_state` (the `base`/`phys` addresses
are identified with the trace and are not separate data). -/

inductive BusOp where
  | rd (idx : Nat) (val : Nat)
  | wr (idx : Nat) (val : Nat)
deriving DecidableEq, Repr

structure CState where
  chip_select : Nat
  word_len : Nat
  conf_cache : Int
deriving DecidableEq, Repr

/-- Session state plus the instrumentation needed by the embedding: the
trace of bus operations performed so far, the count of (non-poll) bus
reads performed (indexing `Env.busRead`), and the count of
`kp_spi_wait_for_reg_bit` calls performed (indexing `Env.waitOk`). -/
structure SpiState where
  cs : CState
  trace : List BusOp
  nreads : Nat
  nwaits : Nat
deriving DecidableEq, Repr

/-- The hardware environment: `busRead k idx` is the value the bus returns
for the k-th non-poll read (of register `idx`); `waitOk k` tells whether
the k-th call of the bit-wait primitive succeeds (`true`) or times out
(`false`). -/
structure Env where
  busRead : Nat → Nat → Nat
  waitOk : Nat → Bool

/-- `kp_spi_read_reg`: a read of the Config register is served from
`conf_cache` when the cache is populated (sentinel `≥ 0`); every other
read hits the bus. -/
def kp_spi_read_reg (env : Env) (s : SpiState) (idx : Nat) : Nat × SpiState :=
  if idx = KP_SPI_REG_CONFIG ∧ 0 ≤ s.cs.conf_cache then
    (s.cs.conf_cache.toNat, s)
  else
    let v := env.busRead s.nreads idx
    (v, { s with trace := s.trace ++ [BusOp.rd idx v], nreads := s.nreads + 1 })

/-- `kp_spi_write_reg`: always hits the bus; a write to the Config
register refreshes `conf_cache` with the written value. -/
def kp_spi_write_reg (s : SpiState) (idx val : Nat) : SpiState :=
  let s1 := { s with trace := s.trace ++ [BusOp.wr idx val] }
  if idx = KP_SPI_REG_CONFIG then
    { s1 with cs := { s1.cs with conf_cache := Int.ofNat val } }
  else s1

/-!
`kp_spi_wait_for_reg_bit`, modelled bit-exactly as a polling loop:
`vals n` is the register value returned by the n-th read the loop
performs, `jif n` is the `jiffies` clock sampled right after the n-th
read, `deadline` is the precomputed `jiffies + msecs_to_jiffies(1000)`
value, and `fuel` bounds the number of iterations (the C loop is
unbounded; `none` means the fuel ran out before the loop exited).
`time_after(jiffies, timeout)` is the strict comparison `deadline < jif n`.
-/

def kp_spi_wait_poll (vals jif : Nat → Nat) (deadline bit : Nat) :
    Nat → Nat → Option Int
  | 0, _ => none
  | fuel + 1, k =>
    if vals k &&& bit ≠ 0 then
      some 0
    else if deadline < jif k then
      if vals (k + 1) &&& bit = 0 then some (-E_TIMEDOUT) else some 0
    else
      kp_spi_wait_poll vals jif deadline bit fuel (k + 1)

def kp_spi_wait_for_reg_bit (vals jif : Nat → Nat) (deadline bit fuel : Nat) :
    Option Int :=
  kp_spi_wait_poll vals jif deadline bit fuel 0

/-! `kp_spi_txrx_pio` and its two inner loops.  A C `char` is signed on
the target, so the byte written to TXDATA in the send loop is the 64-bit
sign extension of the buffer byte, and the byte stored from RXDATA in the
receive loop is the low 8 bits of the 64-bit register value. -/

def signExtend8 (b : Nat) : Nat :=
  if b % 256 < 128 then b % 256 else 2 ^ 64 - 256 + b % 256

/-- One send iteration per element: wait for TX-ready, then write the
byte to TXDATA; a timed-out wait aborts the loop (`goto out`). -/
def kp_spi_tx_loop (env : Env) : Nat → List Nat → SpiState → Nat × SpiState
  | 0, _, s => (0, s)
  | n + 1, txs, s =>
    if env.waitOk s.nwaits then
      let s1 := { s with nwaits := s.nwaits + 1 }
      let s2 := kp_spi_write_reg s1 KP_SPI_REG_TXDATA (signExtend8 (txs.headD 0))
      let r := kp_spi_tx_loop env n txs.tail s2
      (r.1 + 1, r.2)
    else
      (0, { s with nwaits := s.nwaits + 1 })

/-- One receive iteration per unit: write a zero clocking pulse to
TXDATA, wait for RX-ready, then read one byte from RXDATA; a timed-out
wait aborts the loop (`goto out`).  Returns (units moved, bytes read,
state). -/
def kp_spi_rx_loop (env : Env) : Nat → SpiState → Nat × List Nat × SpiState
  | 0, s => (0, [], s)
  | n + 1, s =>
    let s1 := kp_spi_write_reg s KP_SPI_REG_TXDATA 0
    if env.waitOk s1.nwaits then
      let s2 := { s1 with nwaits := s1.nwaits + 1 }
      let p := kp_spi_read_reg env s2 KP_SPI_REG_RXDATA
      let r := kp_spi_rx_loop env n p.2
      (r.1 + 1, p.1 % 256 :: r.2.1, r.2.2)
    else
      (0, [], { s1 with nwaits := s1.nwaits + 1 })

/-- One leg of a message (`struct spi_transfer`): `tx_buf`/`rx_buf` model
the two optional buffers (for `rx_buf`, the list is the buffer's initial
contents), `bits_per_word = 0` means "no per-transfer override". -/
structure SpiTransfer where
  tx_buf : Option (List Nat)
  rx_buf : Option (List Nat)
  len : Nat
  bits_per_word : Nat
  delay_usecs : Nat
  speed_hz : Nat
deriving DecidableEq, Repr

def bumpWait (s : SpiState) : SpiState := { s with nwaits := s.nwaits + 1 }

/-- `kp_spi_txrx_pio`: send loop when `tx_buf` is non-null, else receive
loop when `rx_buf` is non-null; after a completed loop (no `goto out`)
wait once for end-of-transfer, ignoring that wait's result.  Returns
(units processed, final `rx_buf` contents, state). -/
def kp_spi_txrx_pio (env : Env) (s : SpiState) (t : SpiTransfer) :
    Nat × Option (List Nat) × SpiState :=
  match t.tx_buf with
  | some txs =>
    let r := kp_spi_tx_loop env t.len txs s
    if r.1 = t.len then (r.1, t.rx_buf, bumpWait r.2)
    else (r.1, t.rx_buf, r.2)
  | none =>
    match t.rx_buf with
    | some rxs =>
      let r := kp_spi_rx_loop env t.len s
      let out := some (r.2.1 ++ rxs.drop r.1)
      if r.1 = t.len then (r.1, out, bumpWait r.2.2)
      else (r.1, out, r.2.2)
    | none => (0, none, bumpWait s)

/-! `kp_spi_setup`.  The C function declares `union kp_spi_config sc;` on
the stack WITHOUT initializing it, then assigns only the wl, cs, spi_en,
trm and ffen fields before writing `sc.reg`; all other bits (pha, pol,
epol, dpe, wcnt and the reserved bits) keep whatever value the stack
held.  That indeterminate initial value is the explicit parameter
`junk`. -/

/-- The Config value `kp_spi_setup` writes, with `junk` the indeterminate
initial content of the uninitialized stack union (fields assigned in
source order: wl, cs, spi_en, trm, ffen; `sc.reg` is the low 32 bits). -/
def kp_spi_setup_config (junk bits_per_word chip_select : Nat) : Nat :=
  let v := setField junk 4 5 (bits_per_word - 1)
  let v := setField v 14 4 chip_select
  let v := setField v 26 1 0
  let v := setField v 12 2 0
  let v := setField v 25 1 0
  v % 2 ^ 32

/-- The freshly `kzalloc`-ed controller state of the first `kp_spi_setup`
call for a device: chip select and word length copied from the device,
`conf_cache` set to the `-1` "no cached value" sentinel. -/
def kp_spi_alloc_state (chip_select bits_per_word : Nat) : CState :=
  { chip_select := chip_select, word_len := bits_per_word, conf_cache := -1 }

/-- `kp_spi_setup`: allocate session state on the first call
(`prior = none`), then unconditionally write the setup Config value. -/
def kp_spi_setup (junk chip_select bits_per_word : Nat)
    (prior : Option SpiState) : SpiState :=
  let s := match prior with
    | some s => s
    | none =>
      { cs := kp_spi_alloc_state chip_select bits_per_word,
        trace := [], nreads := 0, nwaits := 0 }
  kp_spi_write_reg s KP_SPI_REG_CONFIG
    (kp_spi_setup_config junk bits_per_word chip_select)

/-! The message sequencer `kp_spi_transfer_one_message`. -/

/-- The device descriptor fields the sequencer consults
(`struct spi_device`). -/
structure SpiDevice where
  chip_select : Nat
  bits_per_word : Nat
deriving DecidableEq, Repr

/-- `struct spi_message`: an ordered sequence of transfers. -/
structure SpiMessage where
  transfers : List SpiTransfer
deriving DecidableEq, Repr

/-- Result of `kp_spi_transfer_one_message`: the function's return value,
the message's `actual_length` and `status` fields at finalization, the
final state, and each transfer's final `rx_buf` contents. -/
structure MsgResult where
  ret : Int
  actual_length : Nat
  status : Int
  s : SpiState
  rx_outs : List (Option (List Nat))
deriving Repr

/-- The validation-loop body (lines 297-319): `true` means this transfer
makes the loop return `-EINVAL`. -/
def kp_spi_check_transfer (t : SpiTransfer) : Bool :=
  (decide (KP_SPI_CLK < t.speed_hz) ||
    (decide (t.len ≠ 0) && t.rx_buf.isNone && t.tx_buf.isNone)) ||
  (decide (t.speed_hz ≠ 0) && decide (t.speed_hz < KP_SPI_CLK >>> 15))

/-- A message survives the up-front validation (non-empty, every transfer
passes both checks). -/
def kp_spi_message_valid (m : SpiMessage) : Bool :=
  !m.transfers.isEmpty && !(m.transfers.any kp_spi_check_transfer)

/-- The new Config value computed per transfer (lines 344-366): starting
from the (truncated) current value `sc0`, set the transfer-mode field
from whichever buffer is populated (TX wins when both are), the
word-length field from the chosen word length, and the chip-select
field from the device. -/
def kp_spi_transfer_config (sc0 : Nat) (spidev : SpiDevice) (t : SpiTransfer)
    (word_len : Nat) : Nat :=
  let sc := if t.tx_buf.isSome then setField sc0 12 2 KP_SPI_REG_CONFIG_TRM_TX
    else if t.rx_buf.isSome then setField sc0 12 2 KP_SPI_REG_CONFIG_TRM_RX
    else sc0
  let sc := setField sc 4 5 (word_len - 1)
  setField sc 14 4 spidev.chip_select

/-- The per-transfer body for a transfer with `len ≠ 0` (lines 340-370):
read Config, reconfigure direction / word length / chip select, persist
the chosen word length into the session state, write Config back, then
run the byte transfer primitive. -/
def kp_spi_do_transfer (env : Env) (spidev : SpiDevice) (s : SpiState)
    (t : SpiTransfer) : Nat × Option (List Nat) × SpiState :=
  let word_len := if t.bits_per_word ≠ 0 then t.bits_per_word
    else spidev.bits_per_word
  let p := kp_spi_read_reg env s KP_SPI_REG_CONFIG
  let sc := kp_spi_transfer_config (p.1 % 2 ^ 32) spidev t word_len
  let s2 := { p.2 with cs := { p.2.cs with word_len := word_len } }
  let s3 := kp_spi_write_reg s2 KP_SPI_REG_CONFIG sc
  kp_spi_txrx_pio env s3 t

/-- The transfer loop (lines 333-381).  Returns (actual-length
contribution, `status`, state, per-transfer final `rx_buf` contents).
A transfer with neither buffer and non-zero length breaks with
`-EINVAL`; a short transfer breaks with `-EIO`; both breaks leave the
remaining transfers untouched. -/
def kp_spi_run_transfers (env : Env) (spidev : SpiDevice) :
    List SpiTransfer → SpiState →
    Nat × Int × SpiState × List (Option (List Nat))
  | [], s => (0, 0, s, [])
  | t :: rest, s =>
    if t.tx_buf.isNone && t.rx_buf.isNone && decide (t.len ≠ 0) then
      (0, -E_INVAL, s, t.rx_buf :: rest.map (fun u => u.rx_buf))
    else if t.len ≠ 0 then
      let r := kp_spi_do_transfer env spidev s t
      if r.1 ≠ t.len then
        (r.1, -E_IOERR, r.2.2, r.2.1 :: rest.map (fun u => u.rx_buf))
      else
        let q := kp_spi_run_transfers env spidev rest r.2.2
        (r.1 + q.1, q.2.1, q.2.2.1, r.2.1 :: q.2.2.2)
    else
      let q := kp_spi_run_transfers env spidev rest s
      (q.1, q.2.1, q.2.2.1, t.rx_buf :: q.2.2.2)

/-- `kp_spi_transfer_one_message` (lines 274-392): zero the accumulators,
validate (returning `-EINVAL` with no bus access on failure), assert
chip select (read Config, set SPI-enable, write back), wait once for
end-of-transfer - on timeout `goto out` skips both the transfer loop AND
the de-assert write - then run the transfers and finally read Config,
clear SPI-enable and write back.  The function returns 0 on every path
that passes validation. -/
def kp_spi_transfer_one_message (env : Env) (spidev : SpiDevice)
    (s0 : SpiState) (m : SpiMessage) : MsgResult :=
  if m.transfers.isEmpty then
    { ret := -E_INVAL, actual_length := 0, status := 0, s := s0,
      rx_outs := m.transfers.map (fun u => u.rx_buf) }
  else if m.transfers.any kp_spi_check_transfer then
    { ret := -E_INVAL, actual_length := 0, status := 0, s := s0,
      rx_outs := m.transfers.map (fun u => u.rx_buf) }
  else
    let p := kp_spi_read_reg env s0 KP_SPI_REG_CONFIG
    let scA := setField (p.1 % 2 ^ 32) 26 1 1
    let s2 := kp_spi_write_reg p.2 KP_SPI_REG_CONFIG scA
    if env.waitOk s2.nwaits then
      let s3 := bumpWait s2
      let q := kp_spi_run_transfers env spidev m.transfers s3
      let p2 := kp_spi_read_reg env q.2.2.1 KP_SPI_REG_CONFIG
      let scD := setField (p2.1 % 2 ^ 32) 26 1 0
      let s6 := kp_spi_write_reg p2.2 KP_SPI_REG_CONFIG scD
      { ret := 0, actual_length := q.1, status := q.2.1, s := s6,
        rx_outs := q.2.2.2 }
    else
      { ret := 0, actual_length := 0, status := 0, s := bumpWait s2,
        rx_outs := m.transfers.map (fun u => u.rx_buf) }

/-! Concrete devices, states and environments used by witnesses and
counterexamples. -/

def envAllOk : Env := { busRead := fun _ _ => 0, waitOk := fun _ => true }
def envNoWait : Env := { busRead := fun _ _ => 0, waitOk := fun _ => false }
def envDrift : Env := { busRead := fun k _ => k + 5, waitOk := fun _ => true }
def dev0 : SpiDevice := { chip_select := 1, bits_per_word := 8 }
def st0 : SpiState :=
  { cs := { chip_select := 1, word_len := 8, conf_cache := -1 },
    trace := [], nreads := 0, nwaits := 0 }
def tTx : SpiTransfer :=
  { tx_buf := some [1, 2, 3, 4], rx_buf := none, len := 4,
    bits_per_word := 0, delay_usecs := 0, speed_hz := 1000000 }
def msgTx : SpiMessage := { transfers := [tTx] }


/-! General facts about the sequencer's return value and the
validation predicate. -/

theorem kp_spi_ret_cases (env : Env) (spidev : SpiDevice) (s : SpiState)
    (m : SpiMessage) :
    (kp_spi_message_valid m = true ∧
      (kp_spi_transfer_one_message env spidev s m).ret = 0) ∨
    (kp_spi_message_valid m = false ∧
      kp_spi_transfer_one_message env spidev s m =
        { ret := -E_INVAL, actual_length := 0, status := 0, s := s,
          rx_outs := m.transfers.map (fun u => u.rx_buf) }) := by
  unfold kp_spi_transfer_one_message kp_spi_message_valid
  by_cases hemp : m.transfers.isEmpty
  · right
    simp [hemp]
  · by_cases hany : m.transfers.any kp_spi_check_transfer
    · right
      simp [hemp, hany]
    · left
      refine ⟨by simp [hemp, hany], ?_⟩
      simp only [hemp, hany, Bool.false_eq_true, if_false]
      split <;> rfl

theorem kp_spi_message_valid_eq_false_iff (m : SpiMessage) :
    kp_spi_message_valid m = false ↔
      (m.transfers = [] ∨ ∃ t ∈ m.transfers, kp_spi_check_transfer t = true) := by
  simp [kp_spi_message_valid, List.isEmpty_iff, List.any_eq_true]
  tauto

theorem kp_spi_check_transfer_iff (t : SpiTransfer) :
    kp_spi_check_transfer t = true ↔
      (48000000 < t.speed_hz ∨
        (t.len ≠ 0 ∧ t.tx_buf = none ∧ t.rx_buf = none) ∨
        (t.speed_hz ≠ 0 ∧ t.speed_hz < 48000000 / 32768)) := by
  have hshift : 48000000 >>> 15 = 48000000 / 32768 := by
    norm_num [Nat.shiftRight_eq_div_pow]
  simp only [kp_spi_check_transfer, KP_SPI_CLK, hshift, Bool.or_eq_true,
    Bool.and_eq_true, decide_eq_true_eq, Option.isNone_iff_eq_none]
  tauto

/-- C2: `kp_spi_transfer_one_message` returns `-EINVAL` exactly when the
message has no transfers, or some transfer requests a speed above
48 MHz, or a non-zero speed below 48000000/32768 Hz, or non-zero length
with neither buffer; and on that path the state - in particular the bus
trace - is completely untouched (validate-before-act, all transfers
checked before any hardware access). -/
theorem kp_spi_validation_einval (env : Env) (spidev : SpiDevice)
    (s : SpiState) (m : SpiMessage) :
    ((kp_spi_transfer_one_message env spidev s m).ret = -E_INVAL ↔
      (m.transfers = [] ∨ ∃ t ∈ m.transfers,
        48000000 < t.speed_hz ∨
        (t.len ≠ 0 ∧ t.tx_buf = none ∧ t.rx_buf = none) ∨
        (t.speed_hz ≠ 0 ∧ t.speed_hz < 48000000 / 32768))) ∧
    ((kp_spi_transfer_one_message env spidev s m).ret = -E_INVAL →
      (kp_spi_transfer_one_message env spidev s m).s = s) := by
  have hbad : (∃ t ∈ m.transfers, kp_spi_check_transfer t = true) ↔
      (∃ t ∈ m.transfers,
        48000000 < t.speed_hz ∨
        (t.len ≠ 0 ∧ t.tx_buf = none ∧ t.rx_buf = none) ∨
        (t.speed_hz ≠ 0 ∧ t.speed_hz < 48000000 / 32768)) := by
    constructor
    · rintro ⟨t, ht, hc⟩
      exact ⟨t, ht, (kp_spi_check_transfer_iff t).mp hc⟩
    · rintro ⟨t, ht, hc⟩
      exact ⟨t, ht, (kp_spi_check_transfer_iff t).mpr hc⟩
  rcases kp_spi_ret_cases env spidev s m with ⟨hval, hret⟩ | ⟨hval, heq⟩
  · have hnot : ¬(m.transfers = [] ∨ ∃ t ∈ m.transfers,
        48000000 < t.speed_hz ∨
        (t.len ≠ 0 ∧ t.tx_buf = none ∧ t.rx_buf = none) ∨
        (t.speed_hz ≠ 0 ∧ t.speed_hz < 48000000 / 32768)) := by
      intro h
      rw [← hbad, ← kp_spi_message_valid_eq_false_iff] at h
      rw [hval] at h
      exact absurd h (by decide)
    refine ⟨⟨fun h => absurd (hret ▸ h) (by decide), fun h => absurd h hnot⟩,
      fun h => absurd (hret ▸ h) (by decide)⟩
  · rw [heq]
    exact ⟨⟨fun _ => ((kp_spi_message_valid_eq_false_iff m).mp hval).imp id
        hbad.mp, fun _ => rfl⟩, fun _ => rfl⟩

/-- A transfer requesting 50 MHz, above the 48 MHz controller clock. -/
def tFast : SpiTransfer :=
  { tx_buf := some [1], rx_buf := none, len := 1,
    bits_per_word := 0, delay_usecs := 0, speed_hz := 50000000 }

def msgFast : SpiMessage := { transfers := [tFast] }

/-- C2 witness: the single-transfer message asking for 50 MHz is
rejected with `-EINVAL` and the state is untouched. -/
theorem kp_spi_validation_einval_witness :
    (kp_spi_transfer_one_message envAllOk dev0 st0 msgFast).ret = -E_INVAL ∧
    (kp_spi_transfer_one_message envAllOk dev0 st0 msgFast).s = st0 := by
  have h := kp_spi_validation_einval envAllOk dev0 st0 msgFast
  have hk : msgFast.transfers = [] ∨ ∃ t ∈ msgFast.transfers,
      48000000 < t.speed_hz ∨
      (t.len ≠ 0 ∧ t.tx_buf = none ∧ t.rx_buf = none) ∨
      (t.speed_hz ≠ 0 ∧ t.speed_hz < 48000000 / 32768) :=
    Or.inr ⟨tFast, by decide, Or.inl (by decide)⟩
  exact ⟨h.1.mpr hk, h.2 (h.1.mpr hk)⟩

/-! C6: the bit-wait primitive. -/

theorem kp_spi_wait_poll_unfold (vals jif : Nat → Nat)
    (deadline bit fuel k : Nat) :
    kp_spi_wait_poll vals jif deadline bit (fuel + 1) k =
      if vals k &&& bit ≠ 0 then some 0
      else if deadline < jif k then
        (if vals (k + 1) &&& bit = 0 then some (-E_TIMEDOUT) else some 0)
      else kp_spi_wait_poll vals jif deadline bit fuel (k + 1) := rfl

theorem kp_spi_wait_poll_timeout_iff (vals jif : Nat → Nat)
    (deadline bit : Nat) :
    ∀ (fuel k : Nat),
      kp_spi_wait_poll vals jif deadline bit fuel k = some (-E_TIMEDOUT) ↔
        ∃ i, i < fuel ∧
          (∀ j, k ≤ j → j ≤ k + i + 1 → vals j &&& bit = 0) ∧
          deadline < jif (k + i) ∧
          (∀ j, k ≤ j → j < k + i → ¬ deadline < jif j) := by
  intro fuel
  induction fuel with
  | zero =>
    intro k
    constructor
    · intro h
      exact absurd h (by simp [kp_spi_wait_poll])
    · rintro ⟨i, hi, _⟩
      omega
  | succ fuel ih =>
    intro k
    rw [kp_spi_wait_poll_unfold]
    by_cases h1 : vals k &&& bit ≠ 0
    · rw [if_pos h1]
      constructor
      · intro h
        exact absurd (Option.some.inj h) (by decide)
      · rintro ⟨i, _, hclear, _, _⟩
        exact absurd (hclear k le_rfl (by omega)) h1
    · rw [if_neg h1]
      push_neg at h1
      by_cases h2 : deadline < jif k
      · rw [if_pos h2]
        by_cases h3 : vals (k + 1) &&& bit = 0
        · rw [if_pos h3]
          constructor
          · intro _
            refine ⟨0, by omega, ?_, by simpa using h2, by omega⟩
            intro j hj1 hj2
            have hcase : j = k ∨ j = k + 1 := by omega
            rcases hcase with rfl | rfl
            · exact h1
            · exact h3
          · intro _
            rfl
        · rw [if_neg h3]
          constructor
          · intro h
            exact absurd (Option.some.inj h) (by decide)
          · rintro ⟨i, _, hclear, hdl, hbefore⟩
            rcases Nat.eq_zero_or_pos i with rfl | hi
            · exact absurd (hclear (k + 1) (by omega) (by omega)) h3
            · exact absurd h2 (hbefore k le_rfl (by omega))
      · rw [if_neg h2]
        rw [ih (k + 1)]
        constructor
        · rintro ⟨i, hif, hclear, hdl, hbefore⟩
          refine ⟨i + 1, by omega, ?_, ?_, ?_⟩
          · intro j hj1 hj2
            rcases Nat.eq_or_lt_of_le hj1 with rfl | hj
            · exact h1
            · exact hclear j (by omega) (by omega)
          · have harr : k + (i + 1) = k + 1 + i := by omega
            rw [harr]
            exact hdl
          · intro j hj1 hj2
            rcases Nat.eq_or_lt_of_le hj1 with rfl | hj
            · exact h2
            · exact hbefore j (by omega) (by omega)
        · rintro ⟨i, hif, hclear, hdl, hbefore⟩
          rcases Nat.eq_zero_or_pos i with rfl | hi
          · exact absurd (by simpa using hdl) h2
          · refine ⟨i - 1, by omega, ?_, ?_, ?_⟩
            · intro j hj1 hj2
              exact hclear j (by omega) (by omega)
            · have harr : k + 1 + (i - 1) = k + i := by omega
              rw [harr]
              exact hdl
            · intro j hj1 hj2
              exact hbefore j (by omega) (by omega)

theorem kp_spi_wait_poll_ok (vals jif : Nat → Nat) (deadline bit : Nat) :
    ∀ (fuel k : Nat),
      kp_spi_wait_poll vals jif deadline bit fuel k = some 0 →
      ∃ j, k ≤ j ∧ j ≤ k + fuel ∧ vals j &&& bit ≠ 0 := by
  intro fuel
  induction fuel with
  | zero =>
    intro k h
    exact absurd h (by simp [kp_spi_wait_poll])
  | succ fuel ih =>
    intro k h
    rw [kp_spi_wait_poll_unfold] at h
    by_cases h1 : vals k &&& bit ≠ 0
    · exact ⟨k, le_rfl, by omega, h1⟩
    · rw [if_neg h1] at h
      push_neg at h1
      by_cases h2 : deadline < jif k
      · rw [if_pos h2] at h
        by_cases h3 : vals (k + 1) &&& bit = 0
        · rw [if_pos h3] at h
          exact absurd (Option.some.inj h) (by decide)
        · exact ⟨k + 1, by omega, by omega, h3⟩
      · rw [if_neg h2] at h
        rcases ih (k + 1) h with ⟨j, hj1, hj2, hj3⟩
        exact ⟨j, by omega, by omega, hj3⟩

theorem kp_spi_wait_poll_outcomes (vals jif : Nat → Nat) (deadline bit : Nat) :
    ∀ (fuel k : Nat) (r : Int),
      kp_spi_wait_poll vals jif deadline bit fuel k = some r →
      r = 0 ∨ r = -E_TIMEDOUT := by
  intro fuel
  induction fuel with
  | zero =>
    intro k r h
    exact absurd h (by simp [kp_spi_wait_poll])
  | succ fuel ih =>
    intro k r h
    rw [kp_spi_wait_poll_unfold] at h
    by_cases h1 : vals k &&& bit ≠ 0
    · rw [if_pos h1] at h
      exact Or.inl (Option.some.inj h).symm
    · rw [if_neg h1] at h
      by_cases h2 : deadline < jif k
      · rw [if_pos h2] at h
        by_cases h3 : vals (k + 1) &&& bit = 0
        · rw [if_pos h3] at h
          exact Or.inr (Option.some.inj h).symm
        · rw [if_neg h3] at h
          exact Or.inl (Option.some.inj h).symm
      · rw [if_neg h2] at h
        exact ih (k + 1) r h

/-- C6: the bit-wait loop times out exactly when every read it performed
(all polls and the one extra post-deadline re-check) showed the bit
clear and the deadline had strictly passed at some poll; and whenever it
returns success some performed read actually observed the bit set.  Its
only outcomes are success (0) and `-ETIMEDOUT` (never a partial
result); in particular a bit that becomes set between the last poll and
the deadline check is caught by the single final re-check and yields
success. -/
theorem kp_spi_wait_for_reg_bit_spec (vals jif : Nat → Nat)
    (deadline bit fuel : Nat) :
    (kp_spi_wait_for_reg_bit vals jif deadline bit fuel = some (-E_TIMEDOUT) ↔
      ∃ i, i < fuel ∧ (∀ j, j ≤ i + 1 → vals j &&& bit = 0) ∧
        deadline < jif i ∧ (∀ j, j < i → ¬ deadline < jif j)) ∧
    (kp_spi_wait_for_reg_bit vals jif deadline bit fuel = some 0 →
      ∃ j, j ≤ fuel ∧ vals j &&& bit ≠ 0) ∧
    (∀ r, kp_spi_wait_for_reg_bit vals jif deadline bit fuel = some r →
      r = 0 ∨ r = -E_TIMEDOUT) := by
  refine ⟨?_, ?_, ?_⟩
  · rw [kp_spi_wait_for_reg_bit, kp_spi_wait_poll_timeout_iff]
    constructor
    · rintro ⟨i, h1, h2, h3, h4⟩
      exact ⟨i, h1, fun j hj => h2 j (by omega) (by omega),
        by simpa using h3, fun j hj => h4 j (by omega) (by omega)⟩
    · rintro ⟨i, h1, h2, h3, h4⟩
      exact ⟨i, h1, fun j _ hj => h2 j (by omega),
        by simpa using h3, fun j _ hj => h4 j (by omega)⟩
  · intro h
    rcases kp_spi_wait_poll_ok vals jif deadline bit fuel 0 h with ⟨j, _, hj, hs⟩
    exact ⟨j, by omega, hs⟩
  · intro r h
    exact kp_spi_wait_poll_outcomes vals jif deadline bit fuel 0 r h

/-- A register whose polled value has the EOT bit (0x04) clear on reads
0 and 1 and set from read 2 on. -/
def valsBoundary : Nat → Nat := fun n => if n < 2 then 0 else 4

/-- A jiffies clock that already strictly passes deadline 0 at poll 1. -/
def jifTick : Nat → Nat := fun k => k

/-- C6 witness: with the deadline already passing at poll 1 and the bit
becoming set only at read 2 - the final post-deadline re-check - the
primitive returns success, not Timeout, and indeed some performed read
observed the bit set. -/
theorem kp_spi_wait_for_reg_bit_spec_witness :
    kp_spi_wait_for_reg_bit valsBoundary jifTick 0 4 5 = some 0 ∧
    (∃ j, j ≤ 5 ∧ valsBoundary j &&& 4 ≠ 0) ∧
    ¬ kp_spi_wait_for_reg_bit valsBoundary jifTick 0 4 5 =
        some (-E_TIMEDOUT) := by
  refine ⟨by decide, (kp_spi_wait_for_reg_bit_spec valsBoundary jifTick
    0 4 5).2.1 (by decide), ?_⟩
  intro h
  rcases (kp_spi_wait_for_reg_bit_spec valsBoundary jifTick 0 4 5).1.mp h with
    ⟨i, _, hclear, hdl, hbefore⟩
  have h2 : valsBoundary 2 &&& 4 = 0 → False := by decide
  have hi : i = 1 := by
    rcases Nat.lt_or_ge i 2 with hlt | hge
    · have h0 : ¬ (0 : Nat) < jifTick 0 := by decide
      interval_cases i
      · exact absurd hdl h0
      · rfl
    · exact absurd (hclear 2 (by omega)) h2
  exact h2 (hclear 2 (by omega))

/-! C7: the Config read cache. -/

/-- C7 (amended): for every session state whose Config cache is
populated (`conf_cache ≥ 0`), reading Config returns the cached value
with the state - hence the bus trace - completely unchanged, so a second
read returns the same value and performs no bus access; and any write to
Config (re)populates the cache, establishing that precondition. -/
theorem kp_spi_read_reg_cached (env : Env) (s : SpiState)
    (h : 0 ≤ s.cs.conf_cache) :
    kp_spi_read_reg env s KP_SPI_REG_CONFIG = (s.cs.conf_cache.toNat, s) ∧
    kp_spi_read_reg env (kp_spi_read_reg env s KP_SPI_REG_CONFIG).2
        KP_SPI_REG_CONFIG = (s.cs.conf_cache.toNat, s) ∧
    (∀ (s2 : SpiState) (v : Nat),
      0 ≤ (kp_spi_write_reg s2 KP_SPI_REG_CONFIG v).cs.conf_cache) := by
  have h1 : kp_spi_read_reg env s KP_SPI_REG_CONFIG =
      (s.cs.conf_cache.toNat, s) := by
    rw [kp_spi_read_reg, if_pos ⟨rfl, h⟩]
  refine ⟨h1, by rw [h1, kp_spi_read_reg, if_pos ⟨rfl, h⟩], ?_⟩
  intro s2 v
  rw [kp_spi_write_reg]
  simp only [if_pos rfl]
  exact Int.ofNat_nonneg v

/-- C7 witness: a concrete populated-cache state, read twice. -/
theorem kp_spi_read_reg_cached_witness :
    kp_spi_read_reg envDrift
      { st0 with cs := { st0.cs with conf_cache := 7 } } KP_SPI_REG_CONFIG =
      (7, { st0 with cs := { st0.cs with conf_cache := 7 } }) ∧
    kp_spi_read_reg envDrift
      (kp_spi_read_reg envDrift
        { st0 with cs := { st0.cs with conf_cache := 7 } }
        KP_SPI_REG_CONFIG).2 KP_SPI_REG_CONFIG =
      (7, { st0 with cs := { st0.cs with conf_cache := 7 } }) := by
  have h := kp_spi_read_reg_cached envDrift
    { st0 with cs := { st0.cs with conf_cache := 7 } } (by decide)
  exact ⟨h.1, h.2.1⟩

/-- C7 counterexample: in a session state whose cache is unpopulated
(`conf_cache = -1`, as right after allocation), two successive Config
reads with no intervening write BOTH go to the bus and can return
different values, and the second read does grow the bus trace - the
claim's "for every session state" is refuted. -/
theorem kp_spi_read_reg_uncached_cex :
    (kp_spi_read_reg envDrift
        (kp_spi_read_reg envDrift st0 KP_SPI_REG_CONFIG).2
        KP_SPI_REG_CONFIG).1 ≠
      (kp_spi_read_reg envDrift st0 KP_SPI_REG_CONFIG).1 ∧
    (kp_spi_read_reg envDrift
        (kp_spi_read_reg envDrift st0 KP_SPI_REG_CONFIG).2
        KP_SPI_REG_CONFIG).2.trace ≠
      (kp_spi_read_reg envDrift st0 KP_SPI_REG_CONFIG).2.trace := by
  decide

/-! C8: `kp_spi_setup`. -/

theorem kp_spi_setup_config_eq (junk b c : Nat) :
    kp_spi_setup_config junk b c =
      setField (setField (setField (setField (setField junk 4 5 (b - 1))
        14 4 c) 26 1 0) 12 2 0) 25 1 0 % 2 ^ 32 := rfl

/-- C8 (amended): the first `kp_spi_setup` call allocates session state
with the `-1` "no cached value" sentinel and the device's chip select
and word length, then writes a single Config value in which SPI-enable,
FIFO-enable and the transfer-mode field are cleared, the word-length
field is the device word length minus one and the chip-select field is
the device's chip-select index - but the transmission-enable bit (dpe,
bit 3) is NOT cleared: it keeps the indeterminate content `junk` of the
uninitialized stack union. -/
theorem kp_spi_setup_spec (junk c b : Nat) (hb1 : 1 ≤ b) (hb2 : b ≤ 32)
    (hc : c < 16) :
    (kp_spi_alloc_state c b).conf_cache = -1 ∧
    (kp_spi_alloc_state c b).chip_select = c ∧
    (kp_spi_alloc_state c b).word_len = b ∧
    (kp_spi_setup junk c b none).trace =
      [BusOp.wr KP_SPI_REG_CONFIG (kp_spi_setup_config junk b c)] ∧
    getField (kp_spi_setup_config junk b c) 26 1 = 0 ∧
    getField (kp_spi_setup_config junk b c) 25 1 = 0 ∧
    getField (kp_spi_setup_config junk b c) 12 2 = 0 ∧
    getField (kp_spi_setup_config junk b c) 4 5 = b - 1 ∧
    getField (kp_spi_setup_config junk b c) 14 4 = c ∧
    getField (kp_spi_setup_config junk b c) 3 1 = getField junk 3 1 := by
  refine ⟨rfl, rfl, rfl, rfl, ?_, ?_, ?_, ?_, ?_, ?_⟩
  · rw [kp_spi_setup_config_eq,
      getField_mod _ 32 26 1 (by norm_num),
      getField_setField_high _ 25 1 _ 26 1 (by norm_num),
      getField_setField_high _ 12 2 _ 26 1 (by norm_num),
      getField_setField_self]
    norm_num
  · rw [kp_spi_setup_config_eq,
      getField_mod _ 32 25 1 (by norm_num),
      getField_setField_self]
    norm_num
  · rw [kp_spi_setup_config_eq,
      getField_mod _ 32 12 2 (by norm_num),
      getField_setField_low _ 25 1 _ 12 2 (by norm_num),
      getField_setField_self]
    norm_num
  · rw [kp_spi_setup_config_eq,
      getField_mod _ 32 4 5 (by norm_num),
      getField_setField_low _ 25 1 _ 4 5 (by norm_num),
      getField_setField_low _ 12 2 _ 4 5 (by norm_num),
      getField_setField_low _ 26 1 _ 4 5 (by norm_num),
      getField_setField_low _ 14 4 _ 4 5 (by norm_num),
      getField_setField_self]
    exact Nat.mod_eq_of_lt (by omega)
  · rw [kp_spi_setup_config_eq,
      getField_mod _ 32 14 4 (by norm_num),
      getField_setField_low _ 25 1 _ 14 4 (by norm_num),
      getField_setField_high _ 12 2 _ 14 4 (by norm_num),
      getField_setField_low _ 26 1 _ 14 4 (by norm_num),
      getField_setField_self]
    exact Nat.mod_eq_of_lt (by omega)
  · rw [kp_spi_setup_config_eq,
      getField_mod _ 32 3 1 (by norm_num),
      getField_setField_low _ 25 1 _ 3 1 (by norm_num),
      getField_setField_low _ 12 2 _ 3 1 (by norm_num),
      getField_setField_low _ 26 1 _ 3 1 (by norm_num),
      getField_setField_low _ 14 4 _ 3 1 (by norm_num),
      getField_setField_low _ 4 5 _ 3 1 (by norm_num)]

/-- C8 witness: setup at chip select 1, 8 bits per word, stack junk 0. -/
theorem kp_spi_setup_spec_witness :
    (kp_spi_alloc_state 1 8).conf_cache = -1 ∧
    (kp_spi_setup 0 1 8 none).trace =
      [BusOp.wr KP_SPI_REG_CONFIG (kp_spi_setup_config 0 8 1)] ∧
    getField (kp_spi_setup_config 0 8 1) 26 1 = 0 ∧
    getField (kp_spi_setup_config 0 8 1) 4 5 = 7 ∧
    getField (kp_spi_setup_config 0 8 1) 14 4 = 1 := by
  have h := kp_spi_setup_spec 0 1 8 (by decide) (by decide) (by decide)
  exact ⟨h.1, h.2.2.2.1, h.2.2.2.2.1, h.2.2.2.2.2.2.2.1, h.2.2.2.2.2.2.2.2.1⟩

/-- C8 counterexample: with stack junk 8 (bit 3 set) the Config value
written by the first setup call for a device with chip select 0 and 8
bits per word is 120, whose transmission-enable bit (dpe, bit 3) is 1,
not 0 as the claim requires. -/
theorem kp_spi_setup_dpe_cex :
    (kp_spi_setup 8 0 8 none).trace = [BusOp.wr KP_SPI_REG_CONFIG 120] ∧
    getField 120 3 1 = 1 := by decide

/-! C5, C9, C10: the byte transfer primitive. -/

theorem kp_spi_write_reg_nwaits (s : SpiState) (i v : Nat) :
    (kp_spi_write_reg s i v).nwaits = s.nwaits := by
  by_cases h : i = KP_SPI_REG_CONFIG <;> simp [kp_spi_write_reg, h]

theorem kp_spi_write_reg_nreads (s : SpiState) (i v : Nat) :
    (kp_spi_write_reg s i v).nreads = s.nreads := by
  by_cases h : i = KP_SPI_REG_CONFIG <;> simp [kp_spi_write_reg, h]

theorem kp_spi_write_reg_trace (s : SpiState) (i v : Nat) :
    (kp_spi_write_reg s i v).trace = s.trace ++ [BusOp.wr i v] := by
  by_cases h : i = KP_SPI_REG_CONFIG <;> simp [kp_spi_write_reg, h]

theorem kp_spi_write_reg_cs_of_ne (s : SpiState) (i v : Nat)
    (h : i ≠ KP_SPI_REG_CONFIG) : (kp_spi_write_reg s i v).cs = s.cs := by
  simp [kp_spi_write_reg, h]

/-- Number of consecutive successful waits from index `start`, capped at
`n`: the count of units the per-unit wait lets through. -/
def firstFail (env : Env) (start : Nat) : Nat → Nat
  | 0 => 0
  | n + 1 => if env.waitOk start then firstFail env (start + 1) n + 1 else 0

theorem firstFail_le (env : Env) : ∀ (n start : Nat), firstFail env start n ≤ n := by
  intro n
  induction n with
  | zero => intro start; simp [firstFail]
  | succ n ih =>
    intro start
    rw [firstFail]
    split
    · have := ih (start + 1); omega
    · omega

theorem firstFail_all_ok (env : Env) :
    ∀ (n start : Nat), (∀ j, j < n → env.waitOk (start + j) = true) →
      firstFail env start n = n := by
  intro n
  induction n with
  | zero => intro start _; rfl
  | succ n ih =>
    intro start h
    rw [firstFail, if_pos (by simpa using h 0 (by omega))]
    rw [ih (start + 1) fun j hj => by
      have := h (j + 1) (by omega)
      rwa [show start + (j + 1) = start + 1 + j by omega] at this]

theorem firstFail_at (env : Env) :
    ∀ (n start f : Nat), f < n → env.waitOk (start + f) = false →
      (∀ j, j < f → env.waitOk (start + j) = true) →
      firstFail env start n = f := by
  intro n
  induction n with
  | zero => intro start f hf; omega
  | succ n ih =>
    intro start f hf hfail hok
    rcases Nat.eq_zero_or_pos f with rfl | hpos
    · rw [firstFail, if_neg (by simp [show start + 0 = start by omega] at hfail; simp [hfail])]
    · rw [firstFail, if_pos (by simpa using hok 0 hpos)]
      rw [ih (start + 1) (f - 1) (by omega)
        (by rwa [show start + 1 + (f - 1) = start + f by omega])
        (fun j hj => by
          have := hok (j + 1) (by omega)
          rwa [show start + (j + 1) = start + 1 + j by omega] at this)]
      omega

theorem firstFail_congr (env env2 : Env) :
    ∀ (n start : Nat),
      (∀ j, j < n → env2.waitOk (start + j) = env.waitOk (start + j)) →
      firstFail env2 start n = firstFail env start n := by
  intro n
  induction n with
  | zero => intro start _; rfl
  | succ n ih =>
    intro start h
    rw [firstFail, firstFail]
    rw [show env2.waitOk start = env.waitOk start by
      simpa using h 0 (by omega)]
    split
    · rw [ih (start + 1) fun j hj => by
        have := h (j + 1) (by omega)
        rwa [show start + (j + 1) = start + 1 + j by omega] at this]
    · rfl

theorem kp_spi_tx_loop_count (env : Env) :
    ∀ (n : Nat) (txs : List Nat) (s : SpiState),
      (kp_spi_tx_loop env n txs s).1 = firstFail env s.nwaits n := by
  intro n
  induction n with
  | zero => intro txs s; rfl
  | succ n ih =>
    intro txs s
    rw [kp_spi_tx_loop, firstFail]
    split
    · have hnw : (kp_spi_write_reg { s with nwaits := s.nwaits + 1 }
          KP_SPI_REG_TXDATA (signExtend8 (txs.headD 0))).nwaits =
          s.nwaits + 1 := kp_spi_write_reg_nwaits _ _ _
      simp only [ih, hnw]
    · rfl

theorem kp_spi_read_reg_nwaits (env : Env) (s : SpiState) (i : Nat) :
    (kp_spi_read_reg env s i).2.nwaits = s.nwaits := by
  rw [kp_spi_read_reg]
  split <;> rfl

theorem kp_spi_read_reg_nreads_cached (env : Env) (s : SpiState)
    (h : 0 ≤ s.cs.conf_cache) :
    (kp_spi_read_reg env s KP_SPI_REG_CONFIG).2 = s := by
  rw [kp_spi_read_reg, if_pos ⟨rfl, h⟩]

theorem kp_spi_rx_loop_count (env : Env) :
    ∀ (n : Nat) (s : SpiState),
      (kp_spi_rx_loop env n s).1 = firstFail env s.nwaits n := by
  intro n
  induction n with
  | zero => intro s; rfl
  | succ n ih =>
    intro s
    rw [kp_spi_rx_loop, firstFail]
    have hnw : (kp_spi_write_reg s KP_SPI_REG_TXDATA 0).nwaits = s.nwaits :=
      kp_spi_write_reg_nwaits _ _ _
    rw [hnw]
    split
    · simp only [ih, kp_spi_read_reg_nwaits]
    · rfl

theorem kp_spi_rx_loop_bytes_lt (env : Env) :
    ∀ (n : Nat) (s : SpiState) (x : Nat),
      x ∈ (kp_spi_rx_loop env n s).2.1 → x < 256 := by
  intro n
  induction n with
  | zero =>
    intro s x hx
    simp [kp_spi_rx_loop] at hx
  | succ n ih =>
    intro s x hx
    rw [kp_spi_rx_loop] at hx
    split at hx
    · simp only [List.mem_cons] at hx
      rcases hx with rfl | hx
      · exact Nat.mod_lt _ (by norm_num)
      · exact ih _ x hx
    · simp at hx

theorem kp_spi_txrx_pio_fst (env : Env) (s : SpiState) (t : SpiTransfer) :
    (kp_spi_txrx_pio env s t).1 =
      if t.tx_buf.isSome ∨ t.rx_buf.isSome then firstFail env s.nwaits t.len
      else 0 := by
  rcases htx : t.tx_buf with _ | txs
  · rcases hrx : t.rx_buf with _ | rxs
    · simp [kp_spi_txrx_pio, htx, hrx]
    · rw [kp_spi_txrx_pio, htx, hrx]
      simp only [htx, hrx, Option.isSome_none, Option.isSome_some,
        Bool.false_eq_true, false_or, if_pos]
      split <;> simp [kp_spi_rx_loop_count]
  · rw [kp_spi_txrx_pio, htx]
    simp only [htx, Option.isSome_some, true_or, if_pos]
    split <;> simp [kp_spi_tx_loop_count]

/-- C5: whenever a buffer is present, the byte transfer primitive's
returned count is the number of consecutive successful per-unit waits
capped at the requested length - it equals the length when no per-unit
wait times out, and a timeout at unit f stops the loop with count f;
the count never depends on the configured word-length fields (session
`word_len` or the transfer's `bits_per_word`) nor on the outcome of the
trailing end-of-transfer wait (only wait indices below `len` matter),
and the receive loop moves 8-bit units (every stored byte is < 256). -/
theorem kp_spi_txrx_pio_count (env : Env) (s : SpiState) (t : SpiTransfer) :
    ((t.tx_buf.isSome ∨ t.rx_buf.isSome) →
      (kp_spi_txrx_pio env s t).1 = firstFail env s.nwaits t.len) ∧
    firstFail env s.nwaits t.len ≤ t.len ∧
    ((∀ j, j < t.len → env.waitOk (s.nwaits + j) = true) →
      firstFail env s.nwaits t.len = t.len) ∧
    (∀ f, f < t.len → env.waitOk (s.nwaits + f) = false →
      (∀ j, j < f → env.waitOk (s.nwaits + j) = true) →
      firstFail env s.nwaits t.len = f) ∧
    (∀ w, (kp_spi_txrx_pio env
        { s with cs := { s.cs with word_len := w } } t).1 =
      (kp_spi_txrx_pio env s t).1) ∧
    (∀ b, (kp_spi_txrx_pio env s { t with bits_per_word := b }).1 =
      (kp_spi_txrx_pio env s t).1) ∧
    (∀ env2 : Env,
      (∀ j, j < t.len → env2.waitOk (s.nwaits + j) = env.waitOk (s.nwaits + j)) →
      (kp_spi_txrx_pio env2 s t).1 = (kp_spi_txrx_pio env s t).1) ∧
    (∀ (n : Nat) (x : Nat), x ∈ (kp_spi_rx_loop env n s).2.1 → x < 256) := by
  refine ⟨?_, firstFail_le env t.len s.nwaits, firstFail_all_ok env t.len s.nwaits,
    fun f => firstFail_at env t.len s.nwaits f, ?_, ?_, ?_,
    fun n => kp_spi_rx_loop_bytes_lt env n s⟩
  · intro h
    rw [kp_spi_txrx_pio_fst, if_pos h]
  · intro w
    rw [kp_spi_txrx_pio_fst, kp_spi_txrx_pio_fst]
  · intro b
    rw [kp_spi_txrx_pio_fst, kp_spi_txrx_pio_fst]
  · intro env2 h
    rw [kp_spi_txrx_pio_fst, kp_spi_txrx_pio_fst]
    split
    · exact firstFail_congr env env2 t.len s.nwaits h
    · rfl

/-- The bus-operation pattern of a fully successful receive of `n`
units whose first RXDATA read has oracle index `r`: a zero write to
TXDATA immediately before each RXDATA read, `n` times. -/
def rxDelta (env : Env) (r : Nat) : Nat → List BusOp
  | 0 => []
  | n + 1 =>
    BusOp.wr KP_SPI_REG_TXDATA 0 ::
      BusOp.rd KP_SPI_REG_RXDATA (env.busRead r KP_SPI_REG_RXDATA) ::
      rxDelta env (r + 1) n

/-- The bytes such a receive stores, in order: the low 8 bits of each
successive RXDATA value. -/
def rxBytes (env : Env) (r : Nat) : Nat → List Nat
  | 0 => []
  | n + 1 => env.busRead r KP_SPI_REG_RXDATA % 256 :: rxBytes env (r + 1) n

theorem kp_spi_rx_loop_ok (env : Env) :
    ∀ (n : Nat) (s : SpiState),
      (∀ j, j < n → env.waitOk (s.nwaits + j) = true) →
      kp_spi_rx_loop env n s =
        (n, rxBytes env s.nreads n,
          { s with
            trace := s.trace ++ rxDelta env s.nreads n,
            nreads := s.nreads + n,
            nwaits := s.nwaits + n }) := by
  intro n
  induction n with
  | zero =>
    intro s _
    simp [kp_spi_rx_loop, rxBytes, rxDelta]
  | succ n ih =>
    intro s h
    rw [kp_spi_rx_loop]
    have hw : (kp_spi_write_reg s KP_SPI_REG_TXDATA 0) =
        { s with trace := s.trace ++ [BusOp.wr KP_SPI_REG_TXDATA 0] } := by
      rw [kp_spi_write_reg]
      exact if_neg (by decide)
    rw [hw]
    simp only []
    rw [if_pos (by simpa using h 0 (by omega))]
    have hrd : kp_spi_read_reg env
        { s with
          trace := s.trace ++ [BusOp.wr KP_SPI_REG_TXDATA 0],
          nwaits := s.nwaits + 1 } KP_SPI_REG_RXDATA =
        (env.busRead s.nreads KP_SPI_REG_RXDATA,
          { s with
            trace := s.trace ++ [BusOp.wr KP_SPI_REG_TXDATA 0,
              BusOp.rd KP_SPI_REG_RXDATA (env.busRead s.nreads KP_SPI_REG_RXDATA)],
            nreads := s.nreads + 1,
            nwaits := s.nwaits + 1 }) := by
      rw [kp_spi_read_reg]
      rw [if_neg (fun hcon => absurd hcon.1 (by decide))]
      simp
    rw [hrd]
    rw [ih _ (fun j hj => by
      have := h (j + 1) (by omega)
      simpa [show s.nwaits + (j + 1) = s.nwaits + 1 + j by omega] using this)]
    simp only [rxBytes, rxDelta]
    refine Prod.ext rfl (Prod.ext rfl ?_)
    have h1 : s.nreads + 1 + n = s.nreads + (n + 1) := by omega
    have h2 : s.nwaits + 1 + n = s.nwaits + (n + 1) := by omega
    simp [SpiState.mk.injEq, h1, h2]

theorem rxDelta_count_zero_writes (env : Env) :
    ∀ (n r : Nat),
      List.countP (fun op => decide (op = BusOp.wr KP_SPI_REG_TXDATA 0))
        (rxDelta env r n) = n := by
  intro n
  induction n with
  | zero => intro r; rfl
  | succ n ih =>
    intro r
    rw [rxDelta]
    rw [List.countP_cons, List.countP_cons, ih]
    simp

theorem rxBytes_eq_of_lt (env : Env) :
    ∀ (n r : Nat),
      (∀ j, j < n → env.busRead (r + j) KP_SPI_REG_RXDATA < 256) →
      rxBytes env r n =
        (List.range n).map (fun j => env.busRead (r + j) KP_SPI_REG_RXDATA) := by
  intro n
  induction n with
  | zero => intro r _; rfl
  | succ n ih =>
    intro r h
    rw [rxBytes, List.range_succ_eq_map, List.map_cons, List.map_map]
    congr 1
    · have := h 0 (by omega)
      simp only [Nat.add_zero] at this
      exact Nat.mod_eq_of_lt this
    · rw [ih (r + 1) fun j hj => by
        have := h (j + 1) (by omega)
        rwa [show r + (j + 1) = r + 1 + j by omega] at this]
      apply List.map_congr_left
      intro a _
      simp only [Function.comp_apply, Nat.succ_eq_add_one]
      rw [show r + (a + 1) = r + 1 + a by omega]

/-- C9: a receive-only transfer of n units in which every per-unit wait
succeeds writes zero to TXDATA exactly n times, one immediately before
each of the n RXDATA reads (the trace delta is exactly that
interleaving), and stores the n values read into the receive buffer in
order (their low 8 bits; the values themselves when they are bytes),
leaving the rest of the buffer intact. -/
theorem kp_spi_rx_transfer_spec (env : Env) (s : SpiState) (rxs : List Nat)
    (n b d sp : Nat)
    (hw : ∀ j, j < n → env.waitOk (s.nwaits + j) = true) :
    ∃ sEnd,
      kp_spi_txrx_pio env s
        { tx_buf := none, rx_buf := some rxs, len := n, bits_per_word := b,
          delay_usecs := d, speed_hz := sp } =
        (n, some (rxBytes env s.nreads n ++ rxs.drop n), sEnd) ∧
      sEnd.trace = s.trace ++ rxDelta env s.nreads n ∧
      List.countP (fun op => decide (op = BusOp.wr KP_SPI_REG_TXDATA 0))
        (rxDelta env s.nreads n) = n ∧
      ((∀ j, j < n → env.busRead (s.nreads + j) KP_SPI_REG_RXDATA < 256) →
        rxBytes env s.nreads n =
          (List.range n).map (fun j =>
            env.busRead (s.nreads + j) KP_SPI_REG_RXDATA)) := by
  have hloop := kp_spi_rx_loop_ok env n s hw
  refine ⟨bumpWait
    { s with
      trace := s.trace ++ rxDelta env s.nreads n,
      nreads := s.nreads + n,
      nwaits := s.nwaits + n }, ?_, rfl,
    rxDelta_count_zero_writes env n s.nreads,
    rxBytes_eq_of_lt env n s.nreads⟩
  show (let r := kp_spi_rx_loop env n s
    let out := some (r.2.1 ++ rxs.drop r.1)
    if r.1 = n then (r.1, out, bumpWait r.2.2) else (r.1, out, r.2.2)) = _
  rw [hloop]
  simp

theorem kp_spi_tx_loop_frame (env : Env) :
    ∀ (n : Nat) (txs : List Nat) (s : SpiState), ∃ l,
      (kp_spi_tx_loop env n txs s).2.trace = s.trace ++ l ∧
      (∀ op ∈ l, ∃ v, op = BusOp.wr KP_SPI_REG_TXDATA v) ∧
      (kp_spi_tx_loop env n txs s).2.cs = s.cs ∧
      (kp_spi_tx_loop env n txs s).2.nreads = s.nreads := by
  intro n
  induction n with
  | zero =>
    intro txs s
    exact ⟨[], by simp [kp_spi_tx_loop], by simp, rfl, rfl⟩
  | succ n ih =>
    intro txs s
    rw [kp_spi_tx_loop]
    split
    · obtain ⟨l, hl1, hl2, hl3, hl4⟩ := ih txs.tail
        (kp_spi_write_reg { s with nwaits := s.nwaits + 1 } KP_SPI_REG_TXDATA
          (signExtend8 (txs.headD 0)))
      refine ⟨BusOp.wr KP_SPI_REG_TXDATA (signExtend8 (txs.headD 0)) :: l,
        ?_, ?_, ?_, ?_⟩
      · simp only [hl1, kp_spi_write_reg_trace]
        simp
      · intro op hop
        rcases List.mem_cons.mp hop with rfl | hop
        · exact ⟨_, rfl⟩
        · exact hl2 op hop
      · rw [hl3, kp_spi_write_reg_cs_of_ne _ _ _ (by decide)]
      · rw [hl4, kp_spi_write_reg_nreads]
    · exact ⟨[], by simp, by simp, rfl, rfl⟩

/-- C10: a transfer with BOTH buffers populated is executed send-only:
the per-transfer Config value gets transfer-mode = TX, the byte
primitive runs only the send loop (the trace grows by TXDATA writes
only - no RXDATA read ever happens), and the receive buffer is returned
completely unchanged. -/
theorem kp_spi_both_buffers_tx_only (env : Env) (spidev : SpiDevice)
    (s : SpiState) (t : SpiTransfer) (txs rxs : List Nat)
    (htx : t.tx_buf = some txs) (hrx : t.rx_buf = some rxs) :
    (kp_spi_txrx_pio env s t).2.1 = some rxs ∧
    (∃ l, (kp_spi_txrx_pio env s t).2.2.trace = s.trace ++ l ∧
      ∀ op ∈ l, ∃ v, op = BusOp.wr KP_SPI_REG_TXDATA v) ∧
    (∀ sc0 w, getField (kp_spi_transfer_config sc0 spidev t w) 12 2 =
      KP_SPI_REG_CONFIG_TRM_TX) := by
  refine ⟨?_, ?_, ?_⟩
  · rw [kp_spi_txrx_pio, htx]
    show (let r := kp_spi_tx_loop env t.len txs s
      if r.1 = t.len then (r.1, t.rx_buf, bumpWait r.2)
      else (r.1, t.rx_buf, r.2)).2.1 = some rxs
    by_cases hlen : (kp_spi_tx_loop env t.len txs s).1 = t.len <;>
      simp [hlen, hrx]
  · obtain ⟨l, hl1, hl2, _, _⟩ := kp_spi_tx_loop_frame env t.len txs s
    refine ⟨l, ?_, hl2⟩
    rw [kp_spi_txrx_pio, htx]
    show (let r := kp_spi_tx_loop env t.len txs s
      if r.1 = t.len then (r.1, t.rx_buf, bumpWait r.2)
      else (r.1, t.rx_buf, r.2)).2.2.trace = s.trace ++ l
    by_cases hlen : (kp_spi_tx_loop env t.len txs s).1 = t.len <;>
      simp [hlen, bumpWait, hl1]
  · intro sc0 w
    rw [kp_spi_transfer_config]
    simp only [htx, Option.isSome_some, if_true]
    rw [getField_setField_low _ 14 4 _ 12 2 (by norm_num),
      getField_setField_high _ 4 5 _ 12 2 (by norm_num),
      getField_setField_self]
    rfl

/-- Wait outcomes: the wait with global index 1 times out, all others
succeed. -/
def envOneFail : Env :=
  { busRead := fun _ _ => 0, waitOk := fun k => decide (k ≠ 1) }

def tTx3 : SpiTransfer :=
  { tx_buf := some [1, 2, 3], rx_buf := none, len := 3,
    bits_per_word := 0, delay_usecs := 0, speed_hz := 0 }

/-- C5 witness: a 3-byte send whose second per-unit wait times out moves
exactly 1 unit (the units completed before the timeout), and the moved
count is what `firstFail` predicts. -/
theorem kp_spi_txrx_pio_count_witness :
    (kp_spi_txrx_pio envOneFail st0 tTx3).1 = firstFail envOneFail 0 3 ∧
    firstFail envOneFail 0 3 = 1 ∧
    (kp_spi_txrx_pio envOneFail
        { st0 with cs := { st0.cs with word_len := 32 } } tTx3).1 =
      (kp_spi_txrx_pio envOneFail st0 tTx3).1 := by
  have h := kp_spi_txrx_pio_count envOneFail st0 tTx3
  exact ⟨h.1 (Or.inl (by decide)), by decide, h.2.2.2.2.1 32⟩

/-- The spec scenario's bus: successive RXDATA reads return 0xAA, 0xBB,
0xCC; every wait succeeds. -/
def envRx : Env :=
  { busRead := fun k idx =>
      if idx = KP_SPI_REG_RXDATA then [170, 187, 204].getD k 0 else 0,
    waitOk := fun _ => true }

def tRx3 : SpiTransfer :=
  { tx_buf := none, rx_buf := some [0, 0, 0], len := 3,
    bits_per_word := 0, delay_usecs := 0, speed_hz := 0 }

/-- C9 witness: the spec's scenario - a receive-only transfer of 3 units
with the hardware yielding 0xAA, 0xBB, 0xCC fills the buffer with
exactly those bytes, and the bus saw a zero TXDATA write before each of
the three RXDATA reads. -/
theorem kp_spi_rx_transfer_spec_witness :
    ∃ sEnd,
      kp_spi_txrx_pio envRx st0 tRx3 = (3, some [170, 187, 204], sEnd) ∧
      sEnd.trace = rxDelta envRx 0 3 ∧
      rxDelta envRx 0 3 =
        [BusOp.wr KP_SPI_REG_TXDATA 0, BusOp.rd KP_SPI_REG_RXDATA 170,
          BusOp.wr KP_SPI_REG_TXDATA 0, BusOp.rd KP_SPI_REG_RXDATA 187,
          BusOp.wr KP_SPI_REG_TXDATA 0, BusOp.rd KP_SPI_REG_RXDATA 204] := by
  obtain ⟨sEnd, h1, h2, _, _⟩ :=
    kp_spi_rx_transfer_spec envRx st0 [0, 0, 0] 3 0 0 0 (by decide)
  refine ⟨sEnd, ?_, ?_, by decide⟩
  · unfold tRx3
    rw [h1]
    rfl
  · rw [h2]
    rfl

def tBoth : SpiTransfer :=
  { tx_buf := some [9], rx_buf := some [7], len := 1,
    bits_per_word := 0, delay_usecs := 0, speed_hz := 0 }

/-- C10 witness: a transfer carrying both a send and a receive buffer
leaves the receive buffer unchanged and configures transfer-mode TX. -/
theorem kp_spi_both_buffers_tx_only_witness :
    (kp_spi_txrx_pio envAllOk st0 tBoth).2.1 = some [7] ∧
    getField (kp_spi_transfer_config 0 dev0 tBoth 8) 12 2 =
      KP_SPI_REG_CONFIG_TRM_TX := by
  have h := kp_spi_both_buffers_tx_only envAllOk dev0 st0 tBoth [9] [7] rfl rfl
  exact ⟨h.1, h.2.2 0 8⟩

/-! C1, C3, C4: the message sequencer. -/

/-! Sequencer-level infrastructure: Config-write extraction, the valid
path of the sequencer, and frame lemmas. -/

/-- The values written to the Config register, in trace order. -/
def configWrites : List BusOp → List Nat :=
  List.filterMap (fun op => match op with
    | BusOp.wr idx v => if idx = KP_SPI_REG_CONFIG then some v else none
    | BusOp.rd _ _ => none)

theorem configWrites_append (a b : List BusOp) :
    configWrites (a ++ b) = configWrites a ++ configWrites b :=
  List.filterMap_append a b _

theorem configWrites_nil_of_no_config (l : List BusOp)
    (h : ∀ op ∈ l, ∀ v, op ≠ BusOp.wr KP_SPI_REG_CONFIG v) :
    configWrites l = [] := by
  induction l with
  | nil => rfl
  | cons op rest ih =>
    rw [configWrites, List.filterMap_cons]
    have hop := h op (by simp)
    have hrest := ih fun o ho v => h o (by simp [ho]) v
    match op with
    | BusOp.rd i v => exact hrest
    | BusOp.wr i v =>
      by_cases hi : i = KP_SPI_REG_CONFIG
      · exact absurd (by rw [hi]) (hop v)
      · simp only [if_neg hi]
        exact hrest

theorem kp_spi_transfer_one_message_valid_eq (env : Env) (spidev : SpiDevice)
    (s : SpiState) (m : SpiMessage)
    (hval : kp_spi_message_valid m = true) :
    kp_spi_transfer_one_message env spidev s m =
      (let p := kp_spi_read_reg env s KP_SPI_REG_CONFIG
       let scA := setField (p.1 % 2 ^ 32) 26 1 1
       let s2 := kp_spi_write_reg p.2 KP_SPI_REG_CONFIG scA
       if env.waitOk s2.nwaits then
         let s3 := bumpWait s2
         let q := kp_spi_run_transfers env spidev m.transfers s3
         let p2 := kp_spi_read_reg env q.2.2.1 KP_SPI_REG_CONFIG
         let scD := setField (p2.1 % 2 ^ 32) 26 1 0
         let s6 := kp_spi_write_reg p2.2 KP_SPI_REG_CONFIG scD
         { ret := 0, actual_length := q.1, status := q.2.1, s := s6,
           rx_outs := q.2.2.2 }
       else
         { ret := 0, actual_length := 0, status := 0, s := bumpWait s2,
           rx_outs := m.transfers.map (fun u => u.rx_buf) }) := by
  unfold kp_spi_message_valid at hval
  simp only [Bool.and_eq_true, Bool.not_eq_true'] at hval
  unfold kp_spi_transfer_one_message
  rw [if_neg (by simp [hval.1]), if_neg (by simp [hval.2])]

theorem kp_spi_read_reg_frame (env : Env) (s : SpiState) (i : Nat) :
    ∃ l, (kp_spi_read_reg env s i).2.trace = s.trace ++ l ∧
      configWrites l = [] ∧
      (kp_spi_read_reg env s i).2.cs = s.cs ∧
      (kp_spi_read_reg env s i).2.nwaits = s.nwaits := by
  rw [kp_spi_read_reg]
  split
  · exact ⟨[], by simp, rfl, rfl, rfl⟩
  · exact ⟨[BusOp.rd i (env.busRead s.nreads i)], rfl, rfl, rfl, rfl⟩

theorem kp_spi_rx_loop_frame (env : Env) :
    ∀ (n : Nat) (s : SpiState), ∃ l,
      (kp_spi_rx_loop env n s).2.2.trace = s.trace ++ l ∧
      configWrites l = [] ∧
      (kp_spi_rx_loop env n s).2.2.cs = s.cs := by
  intro n
  induction n with
  | zero =>
    intro s
    exact ⟨[], by simp [kp_spi_rx_loop], rfl, rfl⟩
  | succ n ih =>
    intro s
    rw [kp_spi_rx_loop]
    have hw : (kp_spi_write_reg s KP_SPI_REG_TXDATA 0) =
        { s with trace := s.trace ++ [BusOp.wr KP_SPI_REG_TXDATA 0] } := by
      rw [kp_spi_write_reg]
      exact if_neg (by decide)
    rw [hw]
    simp only []
    by_cases hwk : env.waitOk s.nwaits = true
    · rw [if_pos (by simpa using hwk)]
      have hrd : kp_spi_read_reg env
          { s with
            trace := s.trace ++ [BusOp.wr KP_SPI_REG_TXDATA 0],
            nwaits := s.nwaits + 1 } KP_SPI_REG_RXDATA =
          (env.busRead s.nreads KP_SPI_REG_RXDATA,
            { s with
              trace := s.trace ++ [BusOp.wr KP_SPI_REG_TXDATA 0,
                BusOp.rd KP_SPI_REG_RXDATA
                  (env.busRead s.nreads KP_SPI_REG_RXDATA)],
              nreads := s.nreads + 1,
              nwaits := s.nwaits + 1 }) := by
        rw [kp_spi_read_reg]
        rw [if_neg (fun hcon => absurd hcon.1 (by decide))]
        simp
      rw [hrd]
      obtain ⟨l, h1, h2, h3⟩ := ih
        { s with
          trace := s.trace ++ [BusOp.wr KP_SPI_REG_TXDATA 0,
            BusOp.rd KP_SPI_REG_RXDATA (env.busRead s.nreads KP_SPI_REG_RXDATA)],
          nreads := s.nreads + 1,
          nwaits := s.nwaits + 1 }
      refine ⟨BusOp.wr KP_SPI_REG_TXDATA 0 ::
        BusOp.rd KP_SPI_REG_RXDATA (env.busRead s.nreads KP_SPI_REG_RXDATA) ::
        l, ?_, h2, ?_⟩
      · simp only [h1]
        simp
      · simp only [h3]
    · rw [if_neg (by simpa using hwk)]
      exact ⟨[BusOp.wr KP_SPI_REG_TXDATA 0], rfl, rfl, rfl⟩

theorem configWrites_nil_of_txdata (l : List BusOp)
    (h : ∀ op ∈ l, ∃ v, op = BusOp.wr KP_SPI_REG_TXDATA v) :
    configWrites l = [] := by
  refine configWrites_nil_of_no_config l fun op ho v hcon => ?_
  obtain ⟨w, rfl⟩ := h op ho
  simp [KP_SPI_REG_TXDATA, KP_SPI_REG_CONFIG] at hcon

theorem kp_spi_txrx_pio_frame (env : Env) (s : SpiState) (t : SpiTransfer) :
    ∃ l, (kp_spi_txrx_pio env s t).2.2.trace = s.trace ++ l ∧
      configWrites l = [] ∧
      (kp_spi_txrx_pio env s t).2.2.cs = s.cs := by
  rcases htx : t.tx_buf with _ | txs
  · rcases hrx : t.rx_buf with _ | rxs
    · rw [kp_spi_txrx_pio, htx, hrx]
      exact ⟨[], by simp [bumpWait], rfl, rfl⟩
    · obtain ⟨l, h1, h2, h3⟩ := kp_spi_rx_loop_frame env t.len s
      rw [kp_spi_txrx_pio, htx, hrx]
      refine ⟨l, ?_, h2, ?_⟩
      · show (let r := kp_spi_rx_loop env t.len s
          let out := some (r.2.1 ++ rxs.drop r.1)
          if r.1 = t.len then (r.1, out, bumpWait r.2.2)
          else (r.1, out, r.2.2)).2.2.trace = s.trace ++ l
        by_cases hlen : (kp_spi_rx_loop env t.len s).1 = t.len <;>
          simp [hlen, bumpWait, h1]
      · show (let r := kp_spi_rx_loop env t.len s
          let out := some (r.2.1 ++ rxs.drop r.1)
          if r.1 = t.len then (r.1, out, bumpWait r.2.2)
          else (r.1, out, r.2.2)).2.2.cs = s.cs
        by_cases hlen : (kp_spi_rx_loop env t.len s).1 = t.len <;>
          simp [hlen, bumpWait, h3]
  · obtain ⟨l, h1, h2, h3, _⟩ := kp_spi_tx_loop_frame env t.len txs s
    rw [kp_spi_txrx_pio, htx]
    refine ⟨l, ?_, configWrites_nil_of_txdata l h2, ?_⟩
    · show (let r := kp_spi_tx_loop env t.len txs s
        if r.1 = t.len then (r.1, t.rx_buf, bumpWait r.2)
        else (r.1, t.rx_buf, r.2)).2.2.trace = s.trace ++ l
      by_cases hlen : (kp_spi_tx_loop env t.len txs s).1 = t.len <;>
        simp [hlen, bumpWait, h1]
    · show (let r := kp_spi_tx_loop env t.len txs s
        if r.1 = t.len then (r.1, t.rx_buf, bumpWait r.2)
        else (r.1, t.rx_buf, r.2)).2.2.cs = s.cs
      by_cases hlen : (kp_spi_tx_loop env t.len txs s).1 = t.len <;>
        simp [hlen, bumpWait, h3]

theorem getField_transfer_config_26 (sc0 : Nat) (spidev : SpiDevice)
    (t : SpiTransfer) (w : Nat) :
    getField (kp_spi_transfer_config sc0 spidev t w) 26 1 =
      getField sc0 26 1 := by
  rw [kp_spi_transfer_config]
  rw [getField_setField_high _ 14 4 _ 26 1 (by norm_num),
    getField_setField_high _ 4 5 _ 26 1 (by norm_num)]
  by_cases h1 : t.tx_buf.isSome
  · rw [if_pos h1, getField_setField_high _ 12 2 _ 26 1 (by norm_num)]
  · rw [if_neg h1]
    by_cases h2 : t.rx_buf.isSome
    · rw [if_pos h2, getField_setField_high _ 12 2 _ 26 1 (by norm_num)]
    · rw [if_neg h2]

theorem kp_spi_write_reg_config (X : SpiState) (v : Nat) :
    kp_spi_write_reg X KP_SPI_REG_CONFIG v =
      { X with
        trace := X.trace ++ [BusOp.wr KP_SPI_REG_CONFIG v],
        cs := { X.cs with conf_cache := Int.ofNat v } } := by
  rw [kp_spi_write_reg]
  rfl

theorem kp_spi_do_transfer_config (env : Env) (spidev : SpiDevice)
    (s : SpiState) (t : SpiTransfer)
    (hc : 0 ≤ s.cs.conf_cache)
    (hbit : getField s.cs.conf_cache.toNat 26 1 = 1) :
    ∃ sc l,
      (kp_spi_do_transfer env spidev s t).2.2.trace =
        s.trace ++ BusOp.wr KP_SPI_REG_CONFIG sc :: l ∧
      configWrites l = [] ∧
      getField sc 26 1 = 1 ∧
      0 ≤ (kp_spi_do_transfer env spidev s t).2.2.cs.conf_cache ∧
      getField (kp_spi_do_transfer env spidev s t).2.2.cs.conf_cache.toNat
        26 1 = 1 := by
  have hrdc : kp_spi_read_reg env s KP_SPI_REG_CONFIG =
      (s.cs.conf_cache.toNat, s) := by
    rw [kp_spi_read_reg, if_pos ⟨rfl, hc⟩]
  have hsc1 : ∀ w, getField (kp_spi_transfer_config
      (s.cs.conf_cache.toNat % 2 ^ 32) spidev t w) 26 1 = 1 := by
    intro w
    rw [getField_transfer_config_26, getField_mod _ 32 26 1 (by norm_num), hbit]
  rw [kp_spi_do_transfer, hrdc]
  simp only []
  set w := if t.bits_per_word ≠ 0 then t.bits_per_word
    else spidev.bits_per_word with hwdef
  set sc := kp_spi_transfer_config (s.cs.conf_cache.toNat % 2 ^ 32) spidev t w
    with hscdef
  set s2 : SpiState := { s with cs := { s.cs with word_len := w } } with hs2def
  rw [kp_spi_write_reg_config]
  obtain ⟨l, h1, h2, h3⟩ := kp_spi_txrx_pio_frame env
    { s2 with
      trace := s2.trace ++ [BusOp.wr KP_SPI_REG_CONFIG sc],
      cs := { s2.cs with conf_cache := Int.ofNat sc } } t
  refine ⟨sc, l, ?_, h2, hsc1 w, ?_, ?_⟩
  · rw [h1]
    simp
  · rw [h3]
    exact Int.ofNat_nonneg sc
  · rw [h3]
    simp only [Int.toNat_ofNat]
    exact hsc1 w

theorem kp_spi_run_transfers_config (env : Env) (spidev : SpiDevice) :
    ∀ (ts : List SpiTransfer) (s : SpiState),
      0 ≤ s.cs.conf_cache →
      getField s.cs.conf_cache.toNat 26 1 = 1 →
      ∃ l, (kp_spi_run_transfers env spidev ts s).2.2.1.trace =
          s.trace ++ l ∧
        (∀ v ∈ configWrites l, getField v 26 1 = 1) ∧
        0 ≤ (kp_spi_run_transfers env spidev ts s).2.2.1.cs.conf_cache ∧
        getField
          (kp_spi_run_transfers env spidev ts s).2.2.1.cs.conf_cache.toNat
          26 1 = 1 := by
  intro ts
  induction ts with
  | nil =>
    intro s hc hbit
    exact ⟨[], (List.append_nil _).symm,
      fun v hv => absurd hv (List.not_mem_nil v), hc, hbit⟩
  | cons t rest ih =>
    intro s hc hbit
    rw [kp_spi_run_transfers]
    by_cases b1 : (t.tx_buf.isNone && t.rx_buf.isNone &&
        decide (t.len ≠ 0)) = true
    · rw [if_pos b1]
      exact ⟨[], (List.append_nil _).symm,
        fun v hv => absurd hv (List.not_mem_nil v), hc, hbit⟩
    · rw [if_neg b1]
      by_cases hlen : t.len ≠ 0
      · rw [if_pos hlen]
        obtain ⟨sc, l1, hd1, hd2, hd3, hd4, hd5⟩ :=
          kp_spi_do_transfer_config env spidev s t hc hbit
        simp only []
        by_cases hshort : (kp_spi_do_transfer env spidev s t).1 ≠ t.len
        · rw [if_pos hshort]
          refine ⟨BusOp.wr KP_SPI_REG_CONFIG sc :: l1, hd1, ?_, hd4, hd5⟩
          intro v hv
          rw [show configWrites (BusOp.wr KP_SPI_REG_CONFIG sc :: l1) =
            sc :: configWrites l1 from rfl, hd2] at hv
          rcases List.mem_singleton.mp hv with rfl
          exact hd3
        · rw [if_neg hshort]
          obtain ⟨l2, he1, he2, he3, he4⟩ :=
            ih (kp_spi_do_transfer env spidev s t).2.2 hd4 hd5
          refine ⟨(BusOp.wr KP_SPI_REG_CONFIG sc :: l1) ++ l2, ?_, ?_, he3, he4⟩
          · rw [he1, hd1]
            simp
          · intro v hv
            rw [configWrites_append] at hv
            rcases List.mem_append.mp hv with hv | hv
            · rw [show configWrites (BusOp.wr KP_SPI_REG_CONFIG sc :: l1) =
                sc :: configWrites l1 from rfl, hd2] at hv
              rcases List.mem_singleton.mp hv with rfl
              exact hd3
            · exact he2 v hv
      · rw [if_neg hlen]
        obtain ⟨l2, he1, he2, he3, he4⟩ := ih s hc hbit
        exact ⟨l2, he1, he2, he3, he4⟩

theorem kp_spi_transfer_one_message_valid_ok_eq (env : Env)
    (spidev : SpiDevice) (s : SpiState) (m : SpiMessage)
    (hval : kp_spi_message_valid m = true)
    (hwk : env.waitOk s.nwaits = true) :
    kp_spi_transfer_one_message env spidev s m =
      (let p := kp_spi_read_reg env s KP_SPI_REG_CONFIG
       let scA := setField (p.1 % 2 ^ 32) 26 1 1
       let s2 := kp_spi_write_reg p.2 KP_SPI_REG_CONFIG scA
       let s3 := bumpWait s2
       let q := kp_spi_run_transfers env spidev m.transfers s3
       let p2 := kp_spi_read_reg env q.2.2.1 KP_SPI_REG_CONFIG
       let scD := setField (p2.1 % 2 ^ 32) 26 1 0
       let s6 := kp_spi_write_reg p2.2 KP_SPI_REG_CONFIG scD
       { ret := 0, actual_length := q.1, status := q.2.1, s := s6,
         rx_outs := q.2.2.2 }) := by
  have hcond : env.waitOk (kp_spi_write_reg
      (kp_spi_read_reg env s KP_SPI_REG_CONFIG).2 KP_SPI_REG_CONFIG
      (setField ((kp_spi_read_reg env s KP_SPI_REG_CONFIG).1 % 2 ^ 32)
        26 1 1)).nwaits = true := by
    rw [kp_spi_write_reg_nwaits, kp_spi_read_reg_nwaits]
    exact hwk
  rw [kp_spi_transfer_one_message_valid_eq env spidev s m hval]
  simp only []
  rw [if_pos hcond]

theorem kp_spi_transfer_one_message_timeout_eq (env : Env)
    (spidev : SpiDevice) (s : SpiState) (m : SpiMessage)
    (hval : kp_spi_message_valid m = true)
    (hwk : env.waitOk s.nwaits = false) :
    kp_spi_transfer_one_message env spidev s m =
      { ret := 0, actual_length := 0, status := 0,
        s := bumpWait (kp_spi_write_reg
          (kp_spi_read_reg env s KP_SPI_REG_CONFIG).2 KP_SPI_REG_CONFIG
          (setField ((kp_spi_read_reg env s KP_SPI_REG_CONFIG).1 % 2 ^ 32)
            26 1 1)),
        rx_outs := m.transfers.map (fun u => u.rx_buf) } := by
  have hcond : ¬ env.waitOk (kp_spi_write_reg
      (kp_spi_read_reg env s KP_SPI_REG_CONFIG).2 KP_SPI_REG_CONFIG
      (setField ((kp_spi_read_reg env s KP_SPI_REG_CONFIG).1 % 2 ^ 32)
        26 1 1)).nwaits = true := by
    rw [kp_spi_write_reg_nwaits, kp_spi_read_reg_nwaits]
    simp [hwk]
  rw [kp_spi_transfer_one_message_valid_eq env spidev s m hval]
  simp only []
  rw [if_neg hcond]

/-- C1 (amended): for every message that passes validation, the first
Config write of the run carries SPI-enable set; when the up-front
end-of-transfer wait succeeds, the final Config write is the unique one
with SPI-enable cleared (every earlier Config write - the assert and all
per-transfer reconfigurations - carries it set), so the set-write
precedes the single clear-write on those paths even when an intermediate
transfer fails; but when the up-front wait times out, the `goto out`
skips the de-assert and NO SPI-enable-cleared Config write happens at
all - the claim's "cleared exactly once on every exit path" is false. -/
theorem kp_spi_chip_select_discipline (env : Env) (spidev : SpiDevice)
    (s : SpiState) (m : SpiMessage)
    (hval : kp_spi_message_valid m = true) :
    ∃ ws l,
      (kp_spi_transfer_one_message env spidev s m).s.trace = s.trace ++ l ∧
      configWrites l = ws ∧
      ws ≠ [] ∧
      getField (ws.headD 0) 26 1 = 1 ∧
      (env.waitOk s.nwaits = true →
        ∃ pre lastv, ws = pre ++ [lastv] ∧ getField lastv 26 1 = 0 ∧
          pre ≠ [] ∧ ∀ v ∈ pre, getField v 26 1 = 1) ∧
      (env.waitOk s.nwaits = false →
        ∀ v ∈ ws, getField v 26 1 = 1) := by
  obtain ⟨l0, hr1, hr2, hr3, _⟩ :=
    kp_spi_read_reg_frame env s KP_SPI_REG_CONFIG
  have hscA : getField (setField
      ((kp_spi_read_reg env s KP_SPI_REG_CONFIG).1 % 2 ^ 32) 26 1 1)
      26 1 = 1 := by
    rw [getField_setField_self]
    norm_num
  by_cases hwk : env.waitOk s.nwaits = true
  · rw [kp_spi_transfer_one_message_valid_ok_eq env spidev s m hval hwk]
    simp only []
    set scA := setField
      ((kp_spi_read_reg env s KP_SPI_REG_CONFIG).1 % 2 ^ 32) 26 1 1 with hadef
    set s3 := bumpWait (kp_spi_write_reg
      (kp_spi_read_reg env s KP_SPI_REG_CONFIG).2 KP_SPI_REG_CONFIG scA)
      with h3def
    have h3tr : s3.trace = s.trace ++ (l0 ++ [BusOp.wr KP_SPI_REG_CONFIG scA]) := by
      rw [h3def, bumpWait, kp_spi_write_reg_config]
      simp [hr1]
    have h3c : 0 ≤ s3.cs.conf_cache := by
      rw [h3def, bumpWait, kp_spi_write_reg_config]
      exact Int.ofNat_nonneg scA
    have h3bit : getField s3.cs.conf_cache.toNat 26 1 = 1 := by
      rw [h3def, bumpWait, kp_spi_write_reg_config]
      simpa using hscA
    obtain ⟨l1, hq1, hq2, hq3, hq4⟩ :=
      kp_spi_run_transfers_config env spidev m.transfers s3 h3c h3bit
    obtain ⟨l2, hp1, hp2, hp3, _⟩ := kp_spi_read_reg_frame env
      (kp_spi_run_transfers env spidev m.transfers s3).2.2.1 KP_SPI_REG_CONFIG
    set scD := setField
      ((kp_spi_read_reg env
        (kp_spi_run_transfers env spidev m.transfers s3).2.2.1
        KP_SPI_REG_CONFIG).1 % 2 ^ 32) 26 1 0 with hddef
    have hscD : getField scD 26 1 = 0 := by
      rw [hddef, getField_setField_self]
      norm_num
    refine ⟨scA :: (configWrites l1 ++ [scD]),
      l0 ++ [BusOp.wr KP_SPI_REG_CONFIG scA] ++ l1 ++ l2 ++
        [BusOp.wr KP_SPI_REG_CONFIG scD], ?_, ?_, by simp, ?_, ?_, ?_⟩
    · show (kp_spi_write_reg (kp_spi_read_reg env
        (kp_spi_run_transfers env spidev m.transfers s3).2.2.1
        KP_SPI_REG_CONFIG).2 KP_SPI_REG_CONFIG scD).trace = _
      rw [kp_spi_write_reg_trace, hp1, hq1, h3tr]
      simp
    · rw [configWrites_append, configWrites_append, configWrites_append,
        configWrites_append, hr2, hp2]
      rw [show configWrites [BusOp.wr KP_SPI_REG_CONFIG scA] = [scA] from rfl,
        show configWrites [BusOp.wr KP_SPI_REG_CONFIG scD] = [scD] from rfl]
      simp
    · simpa using hscA
    · intro _
      refine ⟨scA :: configWrites l1, scD, by simp, hscD, by simp, ?_⟩
      intro v hv
      rcases List.mem_cons.mp hv with rfl | hv
      · exact hscA
      · exact hq2 v hv
    · intro hkf
      rw [hwk] at hkf
      exact absurd hkf (by decide)
  · have hwkf : env.waitOk s.nwaits = false := by
      rcases Bool.eq_false_or_eq_true (env.waitOk s.nwaits) with h | h
      · exact absurd h hwk
      · exact h
    rw [kp_spi_transfer_one_message_timeout_eq env spidev s m hval hwkf]
    set scA := setField
      ((kp_spi_read_reg env s KP_SPI_REG_CONFIG).1 % 2 ^ 32) 26 1 1 with hadef
    refine ⟨[scA], l0 ++ [BusOp.wr KP_SPI_REG_CONFIG scA], ?_, ?_, by simp,
      ?_, ?_, ?_⟩
    · show (bumpWait (kp_spi_write_reg
        (kp_spi_read_reg env s KP_SPI_REG_CONFIG).2 KP_SPI_REG_CONFIG
        scA)).trace = _
      rw [bumpWait, kp_spi_write_reg_config]
      simp [hr1]
    · rw [configWrites_append, hr2]
      rfl
    · simpa using hscA
    · intro hkt
      rw [hwkf] at hkt
      exact absurd hkt (by decide)
    · intro _ v hv
      rcases List.mem_singleton.mp hv with rfl
      exact hscA

/-- C1 witness: the happy-path single-send message. -/
theorem kp_spi_chip_select_discipline_witness :
    ∃ ws l,
      (kp_spi_transfer_one_message envAllOk dev0 st0 msgTx).s.trace =
        st0.trace ++ l ∧
      configWrites l = ws ∧
      ws ≠ [] ∧
      getField (ws.headD 0) 26 1 = 1 ∧
      (envAllOk.waitOk st0.nwaits = true →
        ∃ pre lastv, ws = pre ++ [lastv] ∧ getField lastv 26 1 = 0 ∧
          pre ≠ [] ∧ ∀ v ∈ pre, getField v 26 1 = 1) ∧
      (envAllOk.waitOk st0.nwaits = false →
        ∀ v ∈ ws, getField v 26 1 = 1) :=
  kp_spi_chip_select_discipline envAllOk dev0 st0 msgTx (by decide)

/-- C1 counterexample: the valid single-send message under an
environment whose up-front end-of-transfer wait times out.  The run's
Config writes are exactly one SPI-enable=1 write (the assert) and NO
SPI-enable=0 write - chip select is left asserted, refuting "writes
Config with SPI-enable cleared exactly once on every exit path".  The
same run under an all-waits-succeed environment performs two Config
writes with SPI-enable set (assert + per-transfer reconfiguration),
refuting the literal "SPI-enable set exactly once" as well. -/
theorem kp_spi_chip_select_timeout_cex :
    kp_spi_message_valid msgTx = true ∧
    configWrites (kp_spi_transfer_one_message envNoWait dev0 st0
      msgTx).s.trace = [67108864] ∧
    getField 67108864 26 1 = 1 ∧
    List.countP (fun v => decide (getField v 26 1 = 0))
      (configWrites (kp_spi_transfer_one_message envNoWait dev0 st0
        msgTx).s.trace) = 0 ∧
    List.countP (fun v => decide (getField v 26 1 = 1))
      (configWrites (kp_spi_transfer_one_message envAllOk dev0 st0
        msgTx).s.trace) = 2 := by
  decide

theorem kp_spi_do_transfer_fst (env : Env) (spidev : SpiDevice)
    (s : SpiState) (t : SpiTransfer) :
    (kp_spi_do_transfer env spidev s t).1 =
      if t.tx_buf.isSome ∨ t.rx_buf.isSome then firstFail env s.nwaits t.len
      else 0 := by
  rw [kp_spi_do_transfer]
  simp only []
  rw [kp_spi_txrx_pio_fst, kp_spi_write_reg_nwaits]
  rw [show ({ (kp_spi_read_reg env s KP_SPI_REG_CONFIG).2 with
      cs := { (kp_spi_read_reg env s KP_SPI_REG_CONFIG).2.cs with
        word_len := if t.bits_per_word ≠ 0 then t.bits_per_word
          else spidev.bits_per_word } } : SpiState).nwaits =
    (kp_spi_read_reg env s KP_SPI_REG_CONFIG).2.nwaits from rfl]
  rw [kp_spi_read_reg_nwaits]

theorem kp_spi_valid_transfer_has_buf (t : SpiTransfer)
    (h : kp_spi_check_transfer t = false) (hlen : t.len ≠ 0) :
    t.tx_buf.isSome ∨ t.rx_buf.isSome := by
  have hni : ¬ (48000000 < t.speed_hz ∨
      (t.len ≠ 0 ∧ t.tx_buf = none ∧ t.rx_buf = none) ∨
      (t.speed_hz ≠ 0 ∧ t.speed_hz < 48000000 / 32768)) := by
    intro hcon
    rw [← kp_spi_check_transfer_iff] at hcon
    rw [h] at hcon
    exact absurd hcon (by decide)
  push_neg at hni
  rcases htx : t.tx_buf with _ | txs
  · rcases hrx : t.rx_buf with _ | rxs
    · exact absurd hrx (hni.2.1 hlen htx)
    · exact Or.inr rfl
  · exact Or.inl rfl

theorem kp_spi_run_transfers_all_ok (env : Env) (spidev : SpiDevice)
    (hw : ∀ k, env.waitOk k = true) :
    ∀ (ts : List SpiTransfer) (s : SpiState),
      (∀ t ∈ ts, kp_spi_check_transfer t = false) →
      (kp_spi_run_transfers env spidev ts s).1 =
        (ts.map (fun t => t.len)).sum := by
  intro ts
  induction ts with
  | nil => intro s _; rfl
  | cons t rest ih =>
    intro s hchk
    have hbuf : t.len ≠ 0 → (t.tx_buf.isSome ∨ t.rx_buf.isSome) :=
      kp_spi_valid_transfer_has_buf t (hchk t (by simp))
    rw [kp_spi_run_transfers]
    have hcond1 : ¬ (t.tx_buf.isNone && t.rx_buf.isNone &&
        decide (t.len ≠ 0)) = true := by
      intro hc
      simp only [Bool.and_eq_true, decide_eq_true_eq] at hc
      rcases hbuf hc.2 with hb | hb
      · rw [Option.isNone_iff_eq_none.mp hc.1.1] at hb
        exact absurd hb (by decide)
      · rw [Option.isNone_iff_eq_none.mp hc.1.2] at hb
        exact absurd hb (by decide)
    rw [if_neg hcond1]
    by_cases hlen : t.len ≠ 0
    · rw [if_pos hlen]
      have hcnt : (kp_spi_do_transfer env spidev s t).1 = t.len := by
        rw [kp_spi_do_transfer_fst, if_pos (hbuf hlen)]
        exact firstFail_all_ok env t.len s.nwaits fun j _ => hw _
      simp only []
      rw [if_neg (by rw [hcnt]; exact fun hcon => hcon rfl)]
      rw [show ((kp_spi_do_transfer env spidev s t).1 +
          (kp_spi_run_transfers env spidev rest
            (kp_spi_do_transfer env spidev s t).2.2).1,
          (kp_spi_run_transfers env spidev rest
            (kp_spi_do_transfer env spidev s t).2.2).2.1,
          (kp_spi_run_transfers env spidev rest
            (kp_spi_do_transfer env spidev s t).2.2).2.2.1,
          (kp_spi_do_transfer env spidev s t).2.1 ::
            (kp_spi_run_transfers env spidev rest
              (kp_spi_do_transfer env spidev s t).2.2).2.2.2).1 =
        (kp_spi_do_transfer env spidev s t).1 +
          (kp_spi_run_transfers env spidev rest
            (kp_spi_do_transfer env spidev s t).2.2).1 from rfl]
      rw [hcnt, ih _ fun u hu => hchk u (by simp [hu])]
      simp
    · rw [if_neg hlen]
      push_neg at hlen
      rw [show ((kp_spi_run_transfers env spidev rest s).1,
          (kp_spi_run_transfers env spidev rest s).2.1,
          (kp_spi_run_transfers env spidev rest s).2.2.1,
          t.rx_buf :: (kp_spi_run_transfers env spidev rest s).2.2.2).1 =
        (kp_spi_run_transfers env spidev rest s).1 from rfl]
      rw [ih _ fun u hu => hchk u (by simp [hu])]
      simp [hlen]

theorem kp_spi_message_valid_checks (m : SpiMessage)
    (hval : kp_spi_message_valid m = true) :
    ∀ t ∈ m.transfers, kp_spi_check_transfer t = false := by
  intro t ht
  unfold kp_spi_message_valid at hval
  simp only [Bool.and_eq_true, Bool.not_eq_true'] at hval
  have hne := List.any_eq_false.mp hval.2 t ht
  rcases Bool.eq_false_or_eq_true (kp_spi_check_transfer t) with h | h
  · exact absurd h hne
  · exact h

/-- C3: for every message that passes validation, if the up-front
end-of-transfer wait and every wait performed by the byte transfer
primitive succeed, the message's actual_length at finalization equals
the sum of the lengths of all its transfers. -/
theorem kp_spi_actual_length_full (env : Env) (spidev : SpiDevice)
    (s : SpiState) (m : SpiMessage)
    (hval : kp_spi_message_valid m = true)
    (hw : ∀ k, env.waitOk k = true) :
    (kp_spi_transfer_one_message env spidev s m).actual_length =
      (m.transfers.map (fun t => t.len)).sum := by
  rw [kp_spi_transfer_one_message_valid_ok_eq env spidev s m hval (hw _)]
  show (kp_spi_run_transfers env spidev m.transfers _).1 = _
  exact kp_spi_run_transfers_all_ok env spidev hw m.transfers _
    (kp_spi_message_valid_checks m hval)

/-- C3 witness: the 4-byte send message with every wait succeeding moves
exactly 4 bytes. -/
theorem kp_spi_actual_length_full_witness :
    (kp_spi_transfer_one_message envAllOk dev0 st0 msgTx).actual_length =
      (msgTx.transfers.map (fun t => t.len)).sum :=
  kp_spi_actual_length_full envAllOk dev0 st0 msgTx (by decide) fun _ => rfl

/-- C4: once validation has passed, the sequencer's return value is 0
regardless of timeouts or short transfers; and when the byte primitive
comes up short on a transfer (with non-zero length and a buffer), the
loop records `-EIO` in the message's status field and stops: the
remaining transfers are not executed (their receive buffers are handed
back untouched and the state is exactly the state after the failing
transfer), so the caller sees only the shortfall of actual_length. -/
theorem kp_spi_short_transfer_absorbed (env : Env) (spidev : SpiDevice)
    (s : SpiState) (m : SpiMessage)
    (hval : kp_spi_message_valid m = true) :
    (kp_spi_transfer_one_message env spidev s m).ret = 0 ∧
    (∀ (t : SpiTransfer) (rest : List SpiTransfer) (s2 : SpiState),
      t.len ≠ 0 → (t.tx_buf.isSome ∨ t.rx_buf.isSome) →
      (kp_spi_do_transfer env spidev s2 t).1 ≠ t.len →
      kp_spi_run_transfers env spidev (t :: rest) s2 =
        ((kp_spi_do_transfer env spidev s2 t).1, -E_IOERR,
          (kp_spi_do_transfer env spidev s2 t).2.2,
          (kp_spi_do_transfer env spidev s2 t).2.1 ::
            rest.map (fun u => u.rx_buf))) := by
  constructor
  · rcases kp_spi_ret_cases env spidev s m with ⟨_, hret⟩ | ⟨hinv, _⟩
    · exact hret
    · rw [hval] at hinv
      exact absurd hinv (by decide)
  · intro t rest s2 hlen hbuf hshort
    rw [kp_spi_run_transfers]
    have hcond1 : ¬ (t.tx_buf.isNone && t.rx_buf.isNone &&
        decide (t.len ≠ 0)) = true := by
      intro hc
      simp only [Bool.and_eq_true, decide_eq_true_eq] at hc
      rcases hbuf with hb | hb
      · rw [Option.isNone_iff_eq_none.mp hc.1.1] at hb
        exact absurd hb (by decide)
      · rw [Option.isNone_iff_eq_none.mp hc.1.2] at hb
        exact absurd hb (by decide)
    rw [if_neg hcond1, if_pos hlen]
    simp only []
    rw [if_pos hshort]

/-- C4 witness: with every wait timing out, the sequencer still returns
0, and the transfer loop on the 4-byte send breaks immediately with
`-EIO` after moving 0 bytes. -/
theorem kp_spi_short_transfer_absorbed_witness :
    (kp_spi_transfer_one_message envNoWait dev0 st0 msgTx).ret = 0 ∧
    kp_spi_run_transfers envNoWait dev0 [tTx] st0 =
      ((kp_spi_do_transfer envNoWait dev0 st0 tTx).1, -E_IOERR,
        (kp_spi_do_transfer envNoWait dev0 st0 tTx).2.2,
        (kp_spi_do_transfer envNoWait dev0 st0 tTx).2.1 ::
          List.map (fun u => u.rx_buf) ([] : List SpiTransfer)) := by
  have h := kp_spi_short_transfer_absorbed envNoWait dev0 st0 msgTx (by decide)
  exact ⟨h.1, h.2 tTx [] st0 (by decide) (by decide) (by decide)⟩
